import Mathlib

/-!
# Passenger logging agent bootstrap and container detection

A shallow embedding of

* `src/cxx_supportlib/SystemTools/ContainerHelpers.h`
  (`detect_container`, `autoDetectInContainer`), and
* `ext/common/LoggingAgent/Main.cpp`
  (`createEventLoop`, `lowerPrivilege`, `feedbackFdBecameReadable`,
  `caughtExitSignal`, `printInfo`, `myself`, `main`).

Operating-system calls are answered by an explicit environment record; every
call the program makes is appended to a log, so that the order and the number
of calls can be stated and proved.
-/

namespace Passenger

/-! ## Container detection (`ContainerHelpers.h`) -/

/-- The NUL byte, written `'\0'` in the source. -/
def NUL : Char := Char.ofNat 0

/-- A C string as returned by `getenv`: the bytes before the terminating NUL,
so none of them is NUL. -/
structure CString where
  chars : List Char
  noNul : NUL ∉ chars

/-- Dereferencing a C string pointer, `*e`: its first byte, or the terminator
when there is none. -/
def CString.deref (e : CString) : Char := e.chars.headD NUL

/-- Indexing `file[0]` of a `std::string`: the first byte, or `'\0'` when the
string has length 0. -/
def firstByte (file : String) : Char := file.data.headD NUL

/-- Modelled from the spec: `startsWith` (declared in the string utilities,
which are not among the sources) tells whether the content is prefixed by the
given string; a content shorter than the prefix is not prefixed by it. -/
def startsWith (str substr : String) : Bool := substr.data.isPrefixOf str.data

/-- Value of the enumerator `CONTAINER_FOUND`. -/
def CONTAINER_FOUND : Int := 1
/-- Value of the enumerator `CONTAINER_NONE`. -/
def CONTAINER_NONE : Int := 0
/-- Value of the enumerator `CONTAINER_NOT_CHECKED`. -/
def CONTAINER_NOT_CHECKED : Int := -1

/-- The probes of the environment that `detect_container` can execute. -/
inductive Probe where
  | fileExists (path : String)
  | getpid
  | getenv (name : String)
  | unsafeReadFile (path : String)
  deriving DecidableEq, Repr

/-- The environment the probes look at: it is held fixed between calls. -/
structure Env where
  fileExists : String → Bool
  getpid : Nat
  getenv : String → Option CString
  unsafeReadFile : String → String

/-- What one call of `detect_container` yields: the returned boolean, the value
of the thread-local `cached_found` afterwards, and the probes it executed, in
order. -/
structure Call where
  result : Bool
  cached_found : Int
  probes : List Probe
  deriving DecidableEq, Repr

/-- The function `detect_container`, on the environment `env` and the current
value of the thread-local `cached_found`. -/
def detect_container (env : Env) (cached_found : Int) : Call :=
  if cached_found ≠ CONTAINER_NOT_CHECKED then
    -- return cached_found;  (int converted to bool)
    ⟨decide (cached_found ≠ 0), cached_found, []⟩
  else
  let p1 := [Probe.fileExists "/.dockerenv"]
  if env.fileExists "/.dockerenv" then
    ⟨true, CONTAINER_FOUND, p1⟩
  else
  -- fileExists("/proc/vz") && !fileExists("/proc/bc"), short-circuiting
  let p2 := p1 ++ [Probe.fileExists "/proc/vz"] ++
    (if env.fileExists "/proc/vz" then [Probe.fileExists "/proc/bc"] else [])
  if env.fileExists "/proc/vz" && !env.fileExists "/proc/bc" then
    ⟨true, CONTAINER_FOUND, p2⟩
  else
  let p3 := p2 ++ [Probe.getpid]
  if env.getpid = 1 then
    let p3e := p3 ++ [Probe.getenv "container"]
    match env.getenv "container" with
    | none => ⟨false, CONTAINER_NONE, p3e⟩
    | some e =>
      if e.deref = NUL then ⟨false, CONTAINER_NONE, p3e⟩
      else ⟨true, CONTAINER_FOUND, p3e⟩
  else
  let p4 := p3 ++ [Probe.fileExists "/run/systemd/container"]
  if env.fileExists "/run/systemd/container" then
    let file := env.unsafeReadFile "/run/systemd/container"
    let p4r := p4 ++ [Probe.unsafeReadFile "/run/systemd/container"]
    if file.length > 0 then ⟨true, CONTAINER_FOUND, p4r⟩
    else ⟨false, CONTAINER_NONE, p4r⟩
  else
  let p5 := p4 ++ [Probe.fileExists "/proc/1/sched"]
  if env.fileExists "/proc/1/sched" then
    let file := env.unsafeReadFile "/proc/1/sched"
    let p5r := p5 ++ [Probe.unsafeReadFile "/proc/1/sched"]
    if file.length ≥ 0 then
      let t := firstByte file
      if t = NUL then ⟨false, CONTAINER_NONE, p5r⟩
      else if !startsWith file "(1," then ⟨true, CONTAINER_FOUND, p5r⟩
      else ⟨false, cached_found, p5r⟩
    else ⟨false, cached_found, p5r⟩
  else
  -- return false;  (cached_found is left as it was)
  ⟨false, cached_found, p5⟩

/-- The function `autoDetectInContainer`; `linux` is the value of the
preprocessor condition `BOOST_OS_LINUX`. -/
def autoDetectInContainer (linux : Bool) (env : Env) (cached_found : Int) : Call :=
  if linux then detect_container env cached_found
  else ⟨false, cached_found, []⟩

/-- Consecutive calls of `detect_container` on one thread: the calls made, in
order, each starting from the `cached_found` its predecessor left. -/
def callSequence (env : Env) : Nat → Int → List Call
  | 0, _ => []
  | n + 1, cached_found =>
    let c := detect_container env cached_found
    c :: callSequence env n c.cached_found

/-- An environment with no marker file at all and the given PID. -/
def bareEnv (pid : Nat) : Env :=
  { fileExists := fun _ => false
    getpid := pid
    getenv := fun _ => none
    unsafeReadFile := fun _ => "" }

/-- An environment in which exactly the listed files exist, with contents. -/
def fileEnv (pid : Nat) (files : List (String × String)) (container : Option CString) : Env :=
  { fileExists := fun p => (files.lookup p).isSome
    getpid := pid
    getenv := fun n => if n = "container" then container else none
    unsafeReadFile := fun p => (files.lookup p).getD "" }

/-- PID 1 with the environment variable `container` set to `lxc`. -/
def initInLxcEnv : Env :=
  fileEnv 1 [("/run/systemd/container", ""), ("/proc/1/sched", "bash (4242, #threads: 1)")]
    (some ⟨"lxc".data, by decide⟩)

/-- PID 7 under a runtime that wrote `docker` to `/run/systemd/container`. -/
def systemdMarkerEnv : Env :=
  fileEnv 7 [("/run/systemd/container", "docker"), ("/proc/1/sched", "systemd (1, #threads: 1)")]
    none

/-- PID 7 on a host: `/proc/1/sched` begins with the init process's `(1,`. -/
def hostSchedEnv : Env := fileEnv 7 [("/proc/1/sched", "(1, #threads: 1)")] none

/-- PID 7 with a `/proc/1/sched` whose only byte is NUL. -/
def nulSchedEnv : Env := fileEnv 7 [("/proc/1/sched", "\x00")] none

/-! ## The logging agent (`LoggingAgent/Main.cpp`) -/

/-- Sticky bit, `S_ISVTX` of `<sys/stat.h>`. -/
def S_ISVTX : Nat := 0o1000
/-- Owner read permission. -/
def S_IRUSR : Nat := 0o400
/-- Owner write permission. -/
def S_IWUSR : Nat := 0o200
/-- Owner execute permission. -/
def S_IXUSR : Nat := 0o100
/-- Group read permission. -/
def S_IRGRP : Nat := 0o040
/-- Group write permission. -/
def S_IWGRP : Nat := 0o020
/-- Group execute permission. -/
def S_IXGRP : Nat := 0o010
/-- Others read permission. -/
def S_IROTH : Nat := 0o004
/-- Others write permission. -/
def S_IWOTH : Nat := 0o002
/-- Others execute permission. -/
def S_IXOTH : Nat := 0o001

/-- The errno value `EINTR`. -/
def EINTR : Nat := 4
/-- The errno value `EPERM`. -/
def EPERM : Nat := 1

/-- Signal number of `SIGINT`. -/
def SIGINT : Nat := 2
/-- Signal number of `SIGKILL`. -/
def SIGKILL : Nat := 9
/-- Signal number of `SIGTERM`. -/
def SIGTERM : Nat := 15
/-- Signal number of `SIGINFO` (BSD numbering). -/
def SIGINFO : Nat := 29

/-- The libev backend flag `EVBACKEND_EPOLL`. -/
def EVBACKEND_EPOLL : Nat := 4
/-- The libev backend flag `EVBACKEND_KQUEUE`. -/
def EVBACKEND_KQUEUE : Nat := 8
/-- The libev constant `EVUNLOOP_ONE`. -/
def EVUNLOOP_ONE : Nat := 1
/-- The descriptor inherited from the watchdog, `FEEDBACK_FD`. -/
def FEEDBACK_FD : Nat := 3

/-- The fields of `struct passwd` that `main` reads. -/
structure Passwd where
  pw_name : String
  pw_uid : Nat
  pw_gid : Nat
  deriving DecidableEq, Repr

/-- The fields of `struct group` that `main` reads. -/
structure Group where
  gr_name : String
  gr_gid : Nat
  deriving DecidableEq, Repr

/-- The kinds of listen address told apart by `getSocketAddressType`. -/
inductive ServerAddressType where
  | SAT_UNIX
  | SAT_TCP
  deriving DecidableEq, Repr

/-- Modelled from the spec: `getSocketAddressType` (declared in `IOUtils.h`,
not among the sources) tells a filesystem address, written `unix:<path>`, from
a network address `<host>:<port>`. -/
def getSocketAddressType (address : String) : ServerAddressType :=
  if startsWith address "unix:" then ServerAddressType.SAT_UNIX
  else ServerAddressType.SAT_TCP

/-- Modelled from the spec: `parseUnixSocketAddress` (declared in `IOUtils.h`,
not among the sources) gives the path of a `unix:<path>` address. -/
def parseUnixSocketAddress (address : String) : String :=
  String.mk (address.data.drop 5)

/-- The three callbacks that `main` binds to watchers. -/
inductive Callback where
  | feedbackFdBecameReadable
  | caughtExitSignal
  | printInfo
  deriving DecidableEq, Repr

/-- The three warnings of `lowerPrivilege`. -/
inductive Warning where
  | supplementaryGroups
  | groupId
  | userId
  deriving DecidableEq, Repr

/-- The calls with an effect outside the function that the agent makes; a run
is logged as the list of these, in program order. -/
inductive Event where
  | getpwuid (uid : Nat)
  | curl_global_init
  | ev_default_loop (flags : Nat)
  | newAccountsDatabase
  | createServer (address : String)
  | chmod (path : String) (mode : Nat)
  | getpwnam (name : String)
  | getgrgid (gid : Nat)
  | getgrnam (name : String)
  | getFileType (path : String)
  | makeDirTree (path : String) (mode : String) (owner : Option (Nat × Nat))
  | initgroups (user : String) (gid : Nat)
  | setgid (gid : Nat)
  | setuid (uid : Nat)
  | P_WARN (what : Warning) (errno : Nat)
  | accountsAdd (name : String) (password : String) (writable : Bool)
  | newLoggingServer (fd : Nat) (loggingDir : String) (dirPermissions : String)
  | ioStart (fd : Nat) (callback : Callback)
  | feedbackWrite (message : String)
  | sigStart (signo : Nat) (callback : Callback)
  | ev_loop
  | serverActivity
  | killpg (pgrp : Nat) (sig : Nat)
  | _exit (status : Nat)
  | P_DEBUG (message : String)
  | ev_unloop (how : Nat)
  | dump
  | flush
  | P_ERROR (message : String)
  deriving DecidableEq, Repr

/-- The validated option set, as `initializeAgent` hands it over; an option
that may be left out is `none` when it is. The three `union_station_*` options
are only passed on to the `LoggingServer` constructor and are left out. -/
structure Options where
  logging_agent_address : String
  analytics_log_dir : String
  logging_agent_password : String
  analytics_log_user : Option String
  analytics_log_group : Option String
  analytics_log_permissions : Option String

/-- What the reactor can be woken by. -/
inductive Incoming where
  | feedbackFdReadable
  | serverSocketReadable (failure : Option String)
  | signal (signo : Nat)
  deriving DecidableEq, Repr

/-- Everything outside `Main.cpp` that a run depends on: the answers of the
operating system and of the library functions, in the order they are asked.
A call that reports failure by an exception answers `Except.error` with the
text of `what()`; one that reports it by a return value answers the value and
`errno`. For `killpg` the answer is the value the call returns when it
returns: 0 says that the signal was sent, and then the call does not return
to a caller that is in the signalled group. -/
structure World where
  DEFAULT_ANALYTICS_LOG_PERMISSIONS : String
  geteuid : Nat
  getpgrp : Nat
  getpwuid : Nat → Option Passwd
  getpwnam : String → Option Passwd
  getgrgid : Nat → Option Group
  getgrnam : String → Option Group
  ev_default_loop : Nat → Bool
  createServer : String → Except String Nat
  chmod : List (Int × Nat)
  loggingDirNonexistent : Bool
  makeDirTree : Except String Unit
  initgroups : Int × Nat
  setgid : Int × Nat
  setuid : Int × Nat
  newLoggingServer : Except String Unit
  feedbackFdAvailable : Bool
  feedbackWrite : Except String Unit
  killpg : Int
  incoming : List Incoming
  backtrace : String

/-- How a run ends: the process exits with a status; or it is ended by a
signal; or an exception leaves `main` uncaught; or the run is still going on
when the answers of the world are used up (blocked in the reactor, or retrying
an interrupted call). -/
inductive Outcome where
  | exit (status : Nat)
  | killed (sig : Nat)
  | uncaught (what : String)
  | pending
  deriving DecidableEq, Repr

/-- A run: the calls made, in order, and how the run ends. -/
structure Run where
  trace : List Event
  outcome : Outcome
  deriving DecidableEq, Repr

/-- The function `createEventLoop`: tries epoll, then kqueue, then the
default backend; the boolean tells whether a loop was obtained (otherwise the
function throws `"Cannot create an event loop"`). -/
def createEventLoop (w : World) : List Event × Bool :=
  if w.ev_default_loop EVBACKEND_EPOLL then
    ([Event.ev_default_loop EVBACKEND_EPOLL], true)
  else if w.ev_default_loop EVBACKEND_KQUEUE then
    ([Event.ev_default_loop EVBACKEND_EPOLL, Event.ev_default_loop EVBACKEND_KQUEUE], true)
  else
    ([Event.ev_default_loop EVBACKEND_EPOLL, Event.ev_default_loop EVBACKEND_KQUEUE,
      Event.ev_default_loop 0], w.ev_default_loop 0)

/-- The function `lowerPrivilege`: three calls, each followed by a warning
when it does not return 0; nothing is thrown and nothing is skipped. -/
def lowerPrivilege (w : World) (username : String) (user : Passwd) (group : Group) :
    List Event :=
  [Event.initgroups username group.gr_gid] ++
  (if w.initgroups.1 ≠ 0 then [Event.P_WARN Warning.supplementaryGroups w.initgroups.2]
   else []) ++
  [Event.setgid group.gr_gid] ++
  (if w.setgid.1 ≠ 0 then [Event.P_WARN Warning.groupId w.setgid.2] else []) ++
  [Event.setuid user.pw_uid] ++
  (if w.setuid.1 ≠ 0 then [Event.P_WARN Warning.userId w.setuid.2] else [])

/-- What a watcher callback does to the run, besides the calls it logs. -/
inductive Effect where
  | returned
  | unlooped
  | exited (status : Nat)
  | killed (sig : Nat)
  | threw (what : String)
  deriving DecidableEq, Repr

/-- The callback `feedbackFdBecameReadable`: `killpg(getpgrp(), SIGKILL)`,
then `_exit(2)`, which the source comments with "In case killpg() fails".
The caller is a member of the group `getpgrp()` and `SIGKILL` cannot be
blocked or caught, so a `killpg` that succeeds ends the caller by the signal
and control never gets to `_exit(2)`; when `killpg` fails it returns and
`_exit(2)` ends the process. The return value is not looked at by the
program. Neither argument is used. -/
def feedbackFdBecameReadable (w : World) (_watcher : Nat) (_revents : Int) :
    List Event × Effect :=
  if w.killpg = 0 then
    ([Event.killpg w.getpgrp SIGKILL], Effect.killed SIGKILL)
  else
    ([Event.killpg w.getpgrp SIGKILL, Event._exit 2], Effect.exited 2)

/-- The callback `caughtExitSignal`. -/
def caughtExitSignal (_watcher : Nat) (_revents : Int) : List Event × Effect :=
  ([Event.P_DEBUG "Caught signal, exiting...", Event.ev_unloop EVUNLOOP_ONE],
   Effect.unlooped)

/-- The callback `printInfo`. -/
def printInfo (_watcher : Nat) (_revents : Int) : List Event × Effect :=
  ([Event.dump, Event.flush], Effect.returned)

/-- Running a callback by its name. -/
def runCallback (w : World) (watcher : Nat) (revents : Int) : Callback → List Event × Effect
  | Callback.feedbackFdBecameReadable => feedbackFdBecameReadable w watcher revents
  | Callback.caughtExitSignal => caughtExitSignal watcher revents
  | Callback.printInfo => printInfo watcher revents

/-- The watchers registered with the reactor by `main`: the callback of the
feedback descriptor, if started, and the callbacks of the signals. -/
structure Watchers where
  feedbackFd : Option Callback
  signals : List (Nat × Callback)

/-- Modelled from the spec: one iteration of the reactor (libev, not among the
sources) hands the event to the callback of the watcher started for it; an
event for which no watcher was started is not seen. Activity on the listening
socket is handled by the logging server, which may throw. -/
def dispatch (w : World) (ws : Watchers) : Incoming → List Event × Effect
  | Incoming.feedbackFdReadable =>
    match ws.feedbackFd with
    | some cb => runCallback w FEEDBACK_FD 1 cb
    | none => ([], Effect.returned)
  | Incoming.serverSocketReadable none => ([Event.serverActivity], Effect.returned)
  | Incoming.serverSocketReadable (some what) => ([Event.serverActivity], Effect.threw what)
  | Incoming.signal signo =>
    match ws.signals.lookup signo with
    | some cb => runCallback w signo 1 cb
    | none => ([], Effect.returned)

/-- The states of the reactor. -/
inductive ReactorState where
  | idle
  | running
  | stopped
  deriving DecidableEq, Repr

/-- Modelled from the spec: the state of a running reactor after a callback:
`ev_unloop` stops it, a callback that returns normally leaves it running. -/
def ReactorState.after : Effect → ReactorState
  | Effect.returned => ReactorState.running
  | _ => ReactorState.stopped

/-- How a call of `ev_loop` ends: it is still blocked waiting when the events
of the world are used up, it returns, the process has exited or has been
killed inside a callback, or an exception passes through it. -/
inductive LoopEnd where
  | blocked
  | returned
  | exited (status : Nat)
  | killed (sig : Nat)
  | threw (what : String)
  deriving DecidableEq, Repr

/-- Modelled from the spec: `ev_loop` (libev, not among the sources) runs the
callbacks one after the other; it returns once a callback has called
`ev_unloop`, and does not go on once a callback has ended the process or has
thrown; with no event left it blocks. -/
def ev_loop (w : World) (ws : Watchers) : List Incoming → List Event × LoopEnd
  | [] => ([], LoopEnd.blocked)
  | i :: rest =>
    match dispatch w ws i with
    | (t, Effect.returned) => (t ++ (ev_loop w ws rest).1, (ev_loop w ws rest).2)
    | (t, Effect.unlooped) => (t, LoopEnd.returned)
    | (t, Effect.exited status) => (t, LoopEnd.exited status)
    | (t, Effect.killed sig) => (t, LoopEnd.killed sig)
    | (t, Effect.threw what) => (t, LoopEnd.threw what)

/-- The `do ... while (ret == -1 && errno == EINTR)` loop around `chmod`, fed
with the answers `(ret, errno)` of the successive calls; the boolean tells
whether the loop was left. -/
def chmodLoop (path : String) (mode : Nat) : List (Int × Nat) → List Event × Bool
  | [] => ([], false)
  | (ret, errno) :: rest =>
    if ret = -1 ∧ errno = EINTR then
      (Event.chmod path mode :: (chmodLoop path mode rest).1, (chmodLoop path mode rest).2)
    else ([Event.chmod path mode], true)

/-- The function `myself`: the name of the effective user, or the exception
it throws. -/
def myself (w : World) : Except String String :=
  match w.getpwuid w.geteuid with
  | some entry => Except.ok entry.pw_name
  | none => Except.error
      ("The current user, UID " ++ toString w.geteuid ++ ", doesn't have a corresponding " ++
       "entry in the system's user database. Please fix your " ++
       "system's user database first.")

/-- The handler `catch (const tracable_exception &e)` of `main`. -/
def caught (w : World) (trace : List Event) (what : String) : Run :=
  ⟨trace ++ [Event.P_ERROR ("*** ERROR: " ++ what ++ "\n" ++ w.backtrace)], Outcome.exit 1⟩

/-- The mode that `main` passes to `chmod`. -/
def socketMode : Nat :=
  S_ISVTX |||
  S_IRUSR ||| S_IWUSR ||| S_IXUSR |||
  S_IRGRP ||| S_IWGRP ||| S_IXGRP |||
  S_IROTH ||| S_IWOTH ||| S_IXOTH

/-- The message of the exception thrown when the user does not exist. -/
def nonExistentUserMessage (username : String) : String :=
  "The configuration option " ++
  "'PassengerAnalyticsLogUser' (Apache) or " ++
  "'passenger_analytics_log_user' (Nginx) was set to '" ++
  username ++ "', but this user doesn't exist. Please fix " ++
  "the configuration option."

/-- The message of the exception thrown when no group name is configured and
the default group of the user does not exist. -/
def nonExistentDefaultGroupMessage (username : String) (gid : Nat) : String :=
  "The configuration option " ++
  "'PassengerAnalyticsLogGroup' (Apache) or " ++
  "'passenger_analytics_log_group' (Nginx) wasn't set, " ++
  "so PassengerLoggingAgent tried to use the default group " ++
  "for user '" ++ username ++ "' - which is GID #" ++
  toString gid ++ " - as the group for the analytics " ++
  "log dir, but this GID doesn't exist. " ++
  "You can solve this problem by explicitly " ++
  "setting PassengerAnalyticsLogGroup (Apache) or " ++
  "passenger_analytics_log_group (Nginx) to a group that " ++
  "does exist. In any case, it looks like your system's user " ++
  "database is broken; Phusion Passenger can work fine even " ++
  "with this broken user database, but you should still fix it."

/-- The message of the exception thrown when the configured group does not
exist. -/
def nonExistentGroupMessage (groupname : String) : String :=
  "The configuration option " ++
  "'PassengerAnalyticsLogGroup' (Apache) or " ++
  "'passenger_analytics_log_group' (Nginx) was set to '" ++
  groupname ++ "', but this group doesn't exist. Please fix " ++
  "the configuration option."

/-- The group lookup of `main` (lines 180-208): the calls made and the group,
or the message of the exception. -/
def resolveGroup (w : World) (username groupname : String) (user : Passwd) :
    List Event × Except String Group :=
  if groupname = "" then
    match w.getgrgid user.pw_gid with
    | none => ([Event.getgrgid user.pw_gid],
        Except.error (nonExistentDefaultGroupMessage username user.pw_gid))
    | some group => ([Event.getgrgid user.pw_gid], Except.ok group)
  else
    match w.getgrnam groupname with
    | none => ([Event.getgrnam groupname], Except.error (nonExistentGroupMessage groupname))
    | some group => ([Event.getgrnam groupname], Except.ok group)

/-- The watchers as `main` has started them when it calls `ev_loop`. -/
def startedWatchers (w : World) : Watchers :=
  { feedbackFd :=
      if w.feedbackFdAvailable then some Callback.feedbackFdBecameReadable else none
    signals := [(SIGINT, Callback.caughtExitSignal), (SIGTERM, Callback.caughtExitSignal),
                (SIGINFO, Callback.printInfo)] }

/-- The calls by which `main` starts the three signal watchers. -/
def signalWatcherEvents : List Event :=
  [Event.sigStart SIGINT Callback.caughtExitSignal,
   Event.sigStart SIGTERM Callback.caughtExitSignal,
   Event.sigStart SIGINFO Callback.printInfo]

/-- The calls of the `chmod` step of `main` (lines 159-167) and whether the
step is ever left: nothing is called for an address that is not a filesystem
address. -/
def chmodStep (w : World) (socketAddress : String) : List Event × Bool :=
  if getSocketAddressType socketAddress = ServerAddressType.SAT_UNIX then
    chmodLoop (parseUnixSocketAddress socketAddress) socketMode w.chmod
  else ([], true)

/-- The value of `username` in `main`: the option, or else `myself()`. -/
def usernameOf (o : Options) (me : String) : String := o.analytics_log_user.getD me

/-- The value of `groupname` in `main` as read from the options: empty when
the option is left out. -/
def groupnameOf (o : Options) : String := o.analytics_log_group.getD ""

/-- The value of `permissions` in `main`. -/
def permissionsOf (o : Options) (w : World) : String :=
  o.analytics_log_permissions.getD w.DEFAULT_ANALYTICS_LOG_PERMISSIONS

/-- The log when `createEventLoop` has been called (line 156). -/
def logAtEventLoop (w : World) : List Event :=
  [Event.getpwuid w.geteuid, Event.curl_global_init] ++ (createEventLoop w).1

/-- The log when `createServer` has been called (line 158). -/
def logAtSocket (o : Options) (w : World) : List Event :=
  logAtEventLoop w ++
    [Event.newAccountsDatabase, Event.createServer o.logging_agent_address]

/-- The log when the `chmod` step is over (line 167). -/
def logAtChmod (o : Options) (w : World) : List Event :=
  logAtSocket o w ++ (chmodStep w o.logging_agent_address).1

/-- The log when `getpwnam` has been called (line 171). -/
def logAtUser (o : Options) (w : World) (me : String) : List Event :=
  logAtChmod o w ++ [Event.getpwnam (usernameOf o me)]

/-- The log when the group has been looked up (line 208). -/
def logAtGroup (o : Options) (w : World) (me : String) (user : Passwd) : List Event :=
  logAtUser o w me ++ (resolveGroup w (usernameOf o me) (groupnameOf o) user).1

/-- The calls of lines 211-217: `makeDirTree`, with the owner when the
effective UID is 0, if the logging directory does not exist. -/
def makeDirEvents (o : Options) (w : World) (user : Passwd) (group : Group) : List Event :=
  if w.loggingDirNonexistent then
    if w.geteuid = 0 then
      [Event.makeDirTree o.analytics_log_dir (permissionsOf o w)
        (some (user.pw_uid, group.gr_gid))]
    else [Event.makeDirTree o.analytics_log_dir (permissionsOf o w) none]
  else []

/-- The log when the logging directory has been seen to (line 217). -/
def logAtLogDir (o : Options) (w : World) (me : String) (user : Passwd) (group : Group) :
    List Event :=
  logAtGroup o w me user ++ [Event.getFileType o.analytics_log_dir] ++
    makeDirEvents o w user group

/-- The calls of lines 220-222: `lowerPrivilege` if the effective UID is 0. -/
def lowerPrivilegeEvents (o : Options) (w : World) (me : String) (user : Passwd)
    (group : Group) : List Event :=
  if w.geteuid = 0 then lowerPrivilege w (usernameOf o me) user group else []

/-- The log when the `LoggingServer` constructor has been called (line 231). -/
def logAtServer (o : Options) (w : World) (me : String) (user : Passwd) (group : Group)
    (serverSocketFd : Nat) : List Event :=
  logAtLogDir o w me user group ++ lowerPrivilegeEvents o w me user group ++
    [Event.accountsAdd "logging" o.logging_agent_password false,
     Event.newLoggingServer serverSocketFd o.analytics_log_dir "u=rwx,g=rx,o=rx"]

/-- The calls of lines 240-245: the feedback watcher is started and the
message is written if the feedback descriptor is available. -/
def feedbackEvents (w : World) : List Event :=
  if w.feedbackFdAvailable then
    [Event.ioStart FEEDBACK_FD Callback.feedbackFdBecameReadable,
     Event.feedbackWrite "initialized"]
  else []

/-- The log when the feedback descriptor has been seen to (line 245). -/
def logAtFeedback (o : Options) (w : World) (me : String) (user : Passwd) (group : Group)
    (serverSocketFd : Nat) : List Event :=
  logAtServer o w me user group serverSocketFd ++ feedbackEvents w

/-- The log when `ev_loop` is called (line 256): a complete setup. -/
def logAtLoop (o : Options) (w : World) (me : String) (user : Passwd) (group : Group)
    (serverSocketFd : Nat) : List Event :=
  logAtFeedback o w me user group serverSocketFd ++ signalWatcherEvents

/-- The log when `ev_loop` is over. -/
def logAfterLoop (o : Options) (w : World) (me : String) (user : Passwd) (group : Group)
    (serverSocketFd : Nat) : List Event :=
  logAtLoop o w me user group serverSocketFd ++ [Event.ev_loop] ++
    (ev_loop w (startedWatchers w) w.incoming).1

/-- The end of `main`, from the call of `ev_loop` (line 256) on: still in the
loop; `return 0` when the loop returns; the status or the signal by which the
process ended inside a callback; the handler when an exception came out of the
loop. -/
def afterLoop (w : World) (log : List Event) : LoopEnd → Run
  | LoopEnd.blocked => ⟨log, Outcome.pending⟩
  | LoopEnd.returned => ⟨log, Outcome.exit 0⟩
  | LoopEnd.exited status => ⟨log, Outcome.exit status⟩
  | LoopEnd.killed sig => ⟨log, Outcome.killed sig⟩
  | LoopEnd.threw what => caught w log what

/-- The function `main`, from the option set on. -/
def main (o : Options) (w : World) : Run :=
  -- the default `myself()` is evaluated whether or not the option is set
  match myself w with
  | Except.error what => ⟨[Event.getpwuid w.geteuid], Outcome.uncaught what⟩
  | Except.ok me =>
  -- try {
  match (createEventLoop w).2 with
  | false => caught w (logAtEventLoop w) "Cannot create an event loop"
  | true =>
  match w.createServer o.logging_agent_address with
  | Except.error what => caught w (logAtSocket o w) what
  | Except.ok serverSocketFd =>
  match (chmodStep w o.logging_agent_address).2 with
  | false => ⟨logAtChmod o w, Outcome.pending⟩
  | true =>
  match w.getpwnam (usernameOf o me) with
  | none => caught w (logAtUser o w me) (nonExistentUserMessage (usernameOf o me))
  | some user =>
  match (resolveGroup w (usernameOf o me) (groupnameOf o) user).2 with
  | Except.error what => caught w (logAtGroup o w me user) what
  | Except.ok group =>
  match (if w.loggingDirNonexistent then w.makeDirTree else Except.ok ()) with
  | Except.error what => caught w (logAtLogDir o w me user group) what
  | Except.ok _ =>
  match w.newLoggingServer with
  | Except.error what => caught w (logAtServer o w me user group serverSocketFd) what
  | Except.ok _ =>
  match (if w.feedbackFdAvailable then w.feedbackWrite else Except.ok ()) with
  | Except.error what => caught w (logAtFeedback o w me user group serverSocketFd) what
  | Except.ok _ =>
  afterLoop w (logAfterLoop o w me user group serverSocketFd)
    (ev_loop w (startedWatchers w) w.incoming).2

/-- The step of `main` that an event belongs to, numbered in program order. -/
def Event.phase : Event → Nat
  | Event.getpwuid _ => 0
  | Event.curl_global_init => 0
  | Event.ev_default_loop _ => 1
  | Event.newAccountsDatabase => 2
  | Event.createServer _ => 2
  | Event.chmod _ _ => 3
  | Event.getpwnam _ => 4
  | Event.getgrgid _ => 5
  | Event.getgrnam _ => 5
  | Event.getFileType _ => 6
  | Event.makeDirTree _ _ _ => 6
  | Event.initgroups _ _ => 7
  | Event.setgid _ => 7
  | Event.setuid _ => 7
  | Event.P_WARN _ _ => 7
  | Event.accountsAdd _ _ _ => 8
  | Event.newLoggingServer _ _ _ => 8
  | Event.ioStart _ _ => 9
  | Event.feedbackWrite _ => 9
  | Event.sigStart _ _ => 10
  | Event.ev_loop => 11
  | Event.serverActivity => 12
  | Event.killpg _ _ => 12
  | Event._exit _ => 12
  | Event.P_DEBUG _ => 12
  | Event.ev_unloop _ => 12
  | Event.dump => 12
  | Event.flush => 12
  | Event.P_ERROR _ => 13

/-- A log whose events come in the order of the steps of `main` and belong to
the steps up to `k`. -/
def Staged (k : Nat) (l : List Event) : Prop :=
  (∀ e ∈ l, e.phase ≤ k) ∧ l.Pairwise (fun a b => a.phase ≤ b.phase)

/-- The calls made by the callbacks that the reactor runs for the given
events, one after the other. -/
def callbackEvents (w : World) (ws : Watchers) : List Incoming → List Event
  | [] => []
  | i :: rest => (dispatch w ws i).1 ++ callbackEvents w ws rest

/-- The events of a log that belong to step `k` of `main`. -/
def atPhase (k : Nat) (l : List Event) : List Event :=
  l.filter (fun e => e.phase == k)

/-- The calls that create or change a resource while privileged: the socket,
its mode, and the logging directory. -/
def Event.isPrivilegedCreation : Event → Bool
  | Event.createServer _ => true
  | Event.chmod _ _ => true
  | Event.makeDirTree _ _ _ => true
  | _ => false

/-- The calls made from the callbacks that the reactor runs, that is, while a
socket or signal event is processed. -/
def Event.isHandlerCall : Event → Bool
  | Event.serverActivity => true
  | Event.killpg _ _ => true
  | Event._exit _ => true
  | Event.P_DEBUG _ => true
  | Event.ev_unloop _ => true
  | Event.dump => true
  | Event.flush => true
  | _ => false

/-- The registrations of a credential. -/
def Event.isAccountsAdd : Event → Bool
  | Event.accountsAdd _ _ _ => true
  | _ => false

/-- The privilege-changing calls. -/
def Event.isPrivilegeCall : Event → Bool
  | Event.initgroups _ _ => true
  | Event.setgid _ => true
  | Event.setuid _ => true
  | _ => false

/-- The privilege-changing calls of a log, in order. -/
def privilegeCalls (trace : List Event) : List Event :=
  trace.filter Event.isPrivilegeCall

/-- Options with the listen address `unix:/tmp/t.sock`, the user `nobody`
and no group. -/
def unixOptions : Options :=
  { logging_agent_address := "unix:/tmp/t.sock"
    analytics_log_dir := "/var/log/analytics"
    logging_agent_password := "secret"
    analytics_log_user := some "nobody"
    analytics_log_group := none
    analytics_log_permissions := none }

/-- A world in which the agent is started as root by a watchdog, every call
succeeds at once, and the reactor then sees the given events. -/
def rootWorld (incoming : List Incoming) : World :=
  { DEFAULT_ANALYTICS_LOG_PERMISSIONS := "u=rwx,g=rx,o=rx"
    geteuid := 0
    getpgrp := 500
    getpwuid := fun uid => if uid = 0 then some ⟨"root", 0, 0⟩ else none
    getpwnam := fun name => if name = "nobody" then some ⟨"nobody", 65534, 65533⟩ else none
    getgrgid := fun gid => if gid = 65533 then some ⟨"nogroup", 65533⟩ else none
    getgrnam := fun name => if name = "nogroup" then some ⟨"nogroup", 65533⟩ else none
    ev_default_loop := fun _ => true
    createServer := fun _ => Except.ok 5
    chmod := [(0, 0)]
    loggingDirNonexistent := true
    makeDirTree := Except.ok ()
    initgroups := (0, 0)
    setgid := (0, 0)
    setuid := (0, 0)
    newLoggingServer := Except.ok ()
    feedbackFdAvailable := true
    feedbackWrite := Except.ok ()
    killpg := 0
    incoming := incoming
    backtrace := "" }

/-- As `rootWorld`, but `killpg` fails: it returns -1. -/
def killpgFailsWorld (incoming : List Incoming) : World :=
  { rootWorld incoming with killpg := -1 }

/-- As `rootWorld`, but the user database has no entry for any name. -/
def noUserWorld : World :=
  { rootWorld [] with getpwnam := fun _ => none }

/-- As `rootWorld`, but `initgroups`, `setgid` and `setuid` all fail with
`EPERM`. -/
def dropFailsWorld : World :=
  { rootWorld [] with initgroups := (-1, EPERM), setgid := (-1, EPERM), setuid := (-1, EPERM) }

/-- A world in which the agent is started by the unprivileged user `nobody`
(UID 65534), without a feedback descriptor, the logging directory exists and
the listening socket cannot be created. -/
def plainWorld : World :=
  { rootWorld [] with
    geteuid := 65534
    getpwuid := fun uid => if uid = 65534 then some ⟨"nobody", 65534, 65533⟩ else none
    loggingDirNonexistent := false
    feedbackFdAvailable := false }

/-! ### Properties of the container detection -/

theorem CString.deref_eq_NUL_iff (e : CString) : e.deref = NUL ↔ e.chars = [] := by
  cases e with
  | mk chars noNul =>
    cases chars with
    | nil => simp [CString.deref]
    | cons a t =>
      simp only [CString.deref, List.headD_cons]
      constructor
      · intro h
        exact absurd (h ▸ List.mem_cons_self a t) noNul
      · intro h
        exact absurd h (List.cons_ne_nil a t)

theorem firstByte_eq_NUL_of_eq_empty (c : String) (h : c = "") : firstByte c = NUL := by
  subst h; rfl

theorem startsWith_iff (str substr : String) :
    startsWith str substr = true ↔ substr.data <+: str.data := by
  simp [startsWith]

theorem length_pos_iff_ne_empty (s : String) : s.length > 0 ↔ s ≠ "" := by
  cases s with
  | mk data =>
    cases data with
    | nil => simp [String.length]
    | cons a t =>
      simp only [String.length, List.length_cons, gt_iff_lt, Nat.zero_lt_succ, true_iff]
      intro h
      exact absurd (congrArg String.data h) (by simp)

/-- A call that finds the cache already set returns the cached value and
executes no probe. -/
theorem detect_container_cached (env : Env) (cached_found : Int)
    (h : cached_found ≠ CONTAINER_NOT_CHECKED) :
    detect_container env cached_found = ⟨decide (cached_found ≠ 0), cached_found, []⟩ := by
  simp [detect_container, h]

/-- Whatever the call does, it leaves the cache either untouched or set to the
value that stands for the boolean it returns. -/
theorem detect_container_cache_agrees (env : Env) :
    (detect_container env CONTAINER_NOT_CHECKED).cached_found = CONTAINER_NOT_CHECKED ∨
      ((detect_container env CONTAINER_NOT_CHECKED).cached_found ≠ CONTAINER_NOT_CHECKED ∧
        (detect_container env CONTAINER_NOT_CHECKED).result
          = decide ((detect_container env CONTAINER_NOT_CHECKED).cached_found ≠ 0)) := by
  by_cases h1 : env.fileExists "/.dockerenv" = true
  · simp [detect_container, h1, CONTAINER_NOT_CHECKED, CONTAINER_FOUND]
  by_cases h2 : (env.fileExists "/proc/vz" && !env.fileExists "/proc/bc") = true
  · simp [detect_container, h1, h2, CONTAINER_NOT_CHECKED, CONTAINER_FOUND]
  by_cases h3 : env.getpid = 1
  · cases he : env.getenv "container" with
    | none => simp [detect_container, h1, h2, h3, he, CONTAINER_NOT_CHECKED, CONTAINER_NONE]
    | some e =>
      by_cases hd : e.deref = NUL
      · simp [detect_container, h1, h2, h3, he, hd, CONTAINER_NOT_CHECKED, CONTAINER_NONE]
      · simp [detect_container, h1, h2, h3, he, hd, CONTAINER_NOT_CHECKED, CONTAINER_FOUND]
  by_cases h4 : env.fileExists "/run/systemd/container" = true
  · by_cases hl : (env.unsafeReadFile "/run/systemd/container").length > 0
    · simp [detect_container, h1, h2, h3, h4, hl, CONTAINER_NOT_CHECKED, CONTAINER_FOUND]
    · simp [detect_container, h1, h2, h3, h4, hl, CONTAINER_NOT_CHECKED, CONTAINER_NONE]
  by_cases h5 : env.fileExists "/proc/1/sched" = true
  · by_cases ht : firstByte (env.unsafeReadFile "/proc/1/sched") = NUL
    · simp [detect_container, h1, h2, h3, h4, h5, ht, CONTAINER_NOT_CHECKED, CONTAINER_NONE]
    · by_cases hs : startsWith (env.unsafeReadFile "/proc/1/sched") "(1," = true
      · simp [detect_container, h1, h2, h3, h4, h5, ht, hs, CONTAINER_NOT_CHECKED]
      · simp [detect_container, h1, h2, h3, h4, h5, ht, hs, CONTAINER_NOT_CHECKED, CONTAINER_FOUND]
  · simp [detect_container, h1, h2, h3, h4, h5, CONTAINER_NOT_CHECKED]

/-- With the environment held fixed, every call of a sequence that starts from
an unchecked cache returns what a first call returns. -/
theorem callSequence_results (env : Env) (n : Nat) (cached_found : Int)
    (hc : cached_found = CONTAINER_NOT_CHECKED ∨
      (cached_found ≠ CONTAINER_NOT_CHECKED ∧
        (detect_container env CONTAINER_NOT_CHECKED).result = decide (cached_found ≠ 0))) :
    ∀ c ∈ callSequence env n cached_found,
      c.result = (detect_container env CONTAINER_NOT_CHECKED).result := by
  induction n generalizing cached_found with
  | zero => intro c hmem; simp [callSequence] at hmem
  | succ n ih =>
    intro c hmem
    simp only [callSequence, List.mem_cons] at hmem
    rcases hc with hc | ⟨hne, hres⟩
    · subst hc
      rcases hmem with rfl | hmem
      · rfl
      · exact ih _ (detect_container_cache_agrees env) c hmem
    · rw [detect_container_cached env cached_found hne] at hmem
      rcases hmem with rfl | hmem
      · exact hres.symm
      · exact ih _ (Or.inr ⟨hne, hres⟩) c hmem

/-- Once a call has set the cache, no later call of the sequence executes a
probe. -/
theorem callSequence_no_probes (env : Env) (n : Nat) (cached_found : Int)
    (hne : cached_found ≠ CONTAINER_NOT_CHECKED) :
    ∀ c ∈ callSequence env n cached_found, c.probes = [] := by
  induction n with
  | zero => intro c hmem; simp [callSequence] at hmem
  | succ n ih =>
    intro c hmem
    simp only [callSequence, List.mem_cons] at hmem
    rw [detect_container_cached env cached_found hne] at hmem
    rcases hmem with rfl | hmem
    · rfl
    · exact ih c hmem

/-- C4, evaluated where it fails: with no marker file at all and PID 2 the
first call ends in the final `return false`, which leaves `cached_found` at
`CONTAINER_NOT_CHECKED`; the second call returns the same boolean but executes
all four `fileExists` probes and `getpid` a second time. -/
theorem detect_container_default_not_cached :
    callSequence (bareEnv 2) 2 CONTAINER_NOT_CHECKED =
      [ ⟨false, CONTAINER_NOT_CHECKED,
          [Probe.fileExists "/.dockerenv", Probe.fileExists "/proc/vz", Probe.getpid,
           Probe.fileExists "/run/systemd/container", Probe.fileExists "/proc/1/sched"]⟩,
        ⟨false, CONTAINER_NOT_CHECKED,
          [Probe.fileExists "/.dockerenv", Probe.fileExists "/proc/vz", Probe.getpid,
           Probe.fileExists "/run/systemd/container", Probe.fileExists "/proc/1/sched"]⟩ ] := by
  decide

/-- C9: a first call (unchecked cache) decides by the first applicable of the
checks 1-4 and executes no later probe: found if `/.dockerenv` exists; else
found if `/proc/vz` exists and `/proc/bc` does not; else, for PID 1, found
exactly when `container` is set and non-empty, without probing
`/run/systemd/container` or `/proc/1/sched`; else, if `/run/systemd/container`
exists, found exactly when its content is non-empty. Off Linux,
`autoDetectInContainer` answers not-found and executes no probe. -/
theorem detect_container_first_applicable (env : Env) :
    (env.fileExists "/.dockerenv" = true →
      (detect_container env CONTAINER_NOT_CHECKED).result = true ∧
      (detect_container env CONTAINER_NOT_CHECKED).probes = [Probe.fileExists "/.dockerenv"]) ∧
    (env.fileExists "/.dockerenv" = false →
      env.fileExists "/proc/vz" = true → env.fileExists "/proc/bc" = false →
      (detect_container env CONTAINER_NOT_CHECKED).result = true ∧
      (detect_container env CONTAINER_NOT_CHECKED).probes =
        [Probe.fileExists "/.dockerenv", Probe.fileExists "/proc/vz",
         Probe.fileExists "/proc/bc"]) ∧
    (env.fileExists "/.dockerenv" = false →
      ¬ (env.fileExists "/proc/vz" = true ∧ env.fileExists "/proc/bc" = false) →
      env.getpid = 1 →
      ((detect_container env CONTAINER_NOT_CHECKED).result = true ↔
        ∃ e, env.getenv "container" = some e ∧ e.chars ≠ []) ∧
      (detect_container env CONTAINER_NOT_CHECKED).probes =
        [Probe.fileExists "/.dockerenv", Probe.fileExists "/proc/vz"] ++
        (if env.fileExists "/proc/vz" = true then [Probe.fileExists "/proc/bc"] else []) ++
        [Probe.getpid, Probe.getenv "container"]) ∧
    (env.fileExists "/.dockerenv" = false →
      ¬ (env.fileExists "/proc/vz" = true ∧ env.fileExists "/proc/bc" = false) →
      env.getpid ≠ 1 →
      env.fileExists "/run/systemd/container" = true →
      ((detect_container env CONTAINER_NOT_CHECKED).result = true ↔
        env.unsafeReadFile "/run/systemd/container" ≠ "") ∧
      (detect_container env CONTAINER_NOT_CHECKED).probes =
        [Probe.fileExists "/.dockerenv", Probe.fileExists "/proc/vz"] ++
        (if env.fileExists "/proc/vz" = true then [Probe.fileExists "/proc/bc"] else []) ++
        [Probe.getpid, Probe.fileExists "/run/systemd/container",
         Probe.unsafeReadFile "/run/systemd/container"]) ∧
    (∀ cached_found : Int,
      autoDetectInContainer false env cached_found = ⟨false, cached_found, []⟩) := by
  refine ⟨?_, ?_, ?_, ?_, ?_⟩
  · intro h1
    simp [detect_container, h1, CONTAINER_NOT_CHECKED]
  · intro h1 hvz hbc
    simp [detect_container, h1, hvz, hbc, CONTAINER_NOT_CHECKED]
  · intro h1 h2 h3
    have h2b : (env.fileExists "/proc/vz" && !env.fileExists "/proc/bc") = false := by
      cases hvz : env.fileExists "/proc/vz" <;> cases hbc : env.fileExists "/proc/bc" <;>
        simp_all
    cases he : env.getenv "container" with
    | none => simp [detect_container, h1, h2b, h3, he, CONTAINER_NOT_CHECKED]
    | some e =>
      by_cases hd : e.deref = NUL
      · have hnil := (CString.deref_eq_NUL_iff e).1 hd
        simp [detect_container, h1, h2b, h3, he, hd, hnil, CONTAINER_NOT_CHECKED]
      · have hnil : e.chars ≠ [] := fun h => hd ((CString.deref_eq_NUL_iff e).2 h)
        simp [detect_container, h1, h2b, h3, he, hd, hnil, CONTAINER_NOT_CHECKED]
  · intro h1 h2 h3 h4
    have h2b : (env.fileExists "/proc/vz" && !env.fileExists "/proc/bc") = false := by
      cases hvz : env.fileExists "/proc/vz" <;> cases hbc : env.fileExists "/proc/bc" <;>
        simp_all
    by_cases hl : (env.unsafeReadFile "/run/systemd/container").length > 0
    · have hne := (length_pos_iff_ne_empty _).1 hl
      simp [detect_container, h1, h2b, h3, h4, hl, hne, CONTAINER_NOT_CHECKED]
    · have hne : env.unsafeReadFile "/run/systemd/container" = "" := by
        by_contra hcon
        exact hl ((length_pos_iff_ne_empty _).2 hcon)
      simp [detect_container, h1, h2b, h3, h4, hne, CONTAINER_NOT_CHECKED]
  · intro cached_found
    simp [autoDetectInContainer]

/-- C9 at concrete environments, one for each of the four checks: only
`/.dockerenv` exists; only `/proc/vz` exists; PID 1 with `container=lxc`, where
the files of the later checks exist and are not consulted; PID 7 with `docker`
written to `/run/systemd/container`. -/
theorem detect_container_first_applicable_witness :
    ((detect_container (fileEnv 7 [("/.dockerenv", "")] none) CONTAINER_NOT_CHECKED).result = true ∧
      (detect_container (fileEnv 7 [("/.dockerenv", "")] none) CONTAINER_NOT_CHECKED).probes
        = [Probe.fileExists "/.dockerenv"]) ∧
    (detect_container (fileEnv 7 [("/proc/vz", "")] none) CONTAINER_NOT_CHECKED).result = true ∧
    ((detect_container initInLxcEnv CONTAINER_NOT_CHECKED).result = true ∧
      (detect_container initInLxcEnv CONTAINER_NOT_CHECKED).probes
        = [Probe.fileExists "/.dockerenv", Probe.fileExists "/proc/vz", Probe.getpid,
           Probe.getenv "container"]) ∧
    (detect_container systemdMarkerEnv CONTAINER_NOT_CHECKED).result = true :=
  ⟨(detect_container_first_applicable (fileEnv 7 [("/.dockerenv", "")] none)).1 (by decide),
   ((detect_container_first_applicable (fileEnv 7 [("/proc/vz", "")] none)).2.1
      (by decide) (by decide) (by decide)).1,
   ⟨((detect_container_first_applicable initInLxcEnv).2.2.1
      (by decide) (by decide) (by decide)).1.2 ⟨_, rfl, by decide⟩,
    ((detect_container_first_applicable initInLxcEnv).2.2.1
      (by decide) (by decide) (by decide)).2⟩,
   ((detect_container_first_applicable systemdMarkerEnv).2.2.2.1
      (by decide) (by decide) (by decide) (by decide)).1.2 (by decide)⟩

/-- C10, amended: when checks 1-4 are not definitive, the result follows the
content `c` of `/proc/1/sched`: no such file gives not-found; `c` empty gives
not-found; `c` whose first byte is not NUL and that is not prefixed by `(1,`
gives found (also when `c` is shorter than the prefix); `c` prefixed by `(1,`
gives the default not-found. -/
theorem detect_container_sched (env : Env)
    (h1 : env.fileExists "/.dockerenv" = false)
    (h2 : ¬ (env.fileExists "/proc/vz" = true ∧ env.fileExists "/proc/bc" = false))
    (h3 : env.getpid ≠ 1)
    (h4 : env.fileExists "/run/systemd/container" = false) :
    (env.fileExists "/proc/1/sched" = false →
      (detect_container env CONTAINER_NOT_CHECKED).result = false) ∧
    (env.fileExists "/proc/1/sched" = true →
      (env.unsafeReadFile "/proc/1/sched" = "" →
        (detect_container env CONTAINER_NOT_CHECKED).result = false) ∧
      (firstByte (env.unsafeReadFile "/proc/1/sched") ≠ NUL →
        ¬ ("(1,".data <+: (env.unsafeReadFile "/proc/1/sched").data) →
        (detect_container env CONTAINER_NOT_CHECKED).result = true) ∧
      ("(1,".data <+: (env.unsafeReadFile "/proc/1/sched").data →
        (detect_container env CONTAINER_NOT_CHECKED).result = false)) := by
  have h2b : (env.fileExists "/proc/vz" && !env.fileExists "/proc/bc") = false := by
    cases hvz : env.fileExists "/proc/vz" <;> cases hbc : env.fileExists "/proc/bc" <;>
      simp_all
  refine ⟨?_, ?_⟩
  · intro h5
    simp [detect_container, h1, h2b, h3, h4, h5, CONTAINER_NOT_CHECKED]
  · intro h5
    refine ⟨?_, ?_, ?_⟩
    · intro hc
      have ht := firstByte_eq_NUL_of_eq_empty _ hc
      simp [detect_container, h1, h2b, h3, h4, h5, ht, CONTAINER_NOT_CHECKED]
    · intro ht hs
      have hs2 : startsWith (env.unsafeReadFile "/proc/1/sched") "(1," = false := by
        rw [Bool.eq_false_iff]
        exact fun h => hs ((startsWith_iff _ _).1 h)
      simp [detect_container, h1, h2b, h3, h4, h5, ht, hs2, CONTAINER_NOT_CHECKED]
    · intro hs
      have hs2 : startsWith (env.unsafeReadFile "/proc/1/sched") "(1," = true :=
        (startsWith_iff _ _).2 hs
      by_cases ht : firstByte (env.unsafeReadFile "/proc/1/sched") = NUL
      · simp [detect_container, h1, h2b, h3, h4, h5, ht, CONTAINER_NOT_CHECKED]
      · simp [detect_container, h1, h2b, h3, h4, h5, ht, hs2, CONTAINER_NOT_CHECKED]

/-- C10 at concrete environments: no `/proc/1/sched`; an empty one; the
content `(1`, which is shorter than the prefix; and a content that begins with
`(1,`. -/
theorem detect_container_sched_witness :
    (detect_container (bareEnv 7) CONTAINER_NOT_CHECKED).result = false ∧
    (detect_container (fileEnv 7 [("/proc/1/sched", "")] none) CONTAINER_NOT_CHECKED).result
      = false ∧
    (detect_container (fileEnv 7 [("/proc/1/sched", "(1")] none) CONTAINER_NOT_CHECKED).result
      = true ∧
    (detect_container hostSchedEnv CONTAINER_NOT_CHECKED).result = false :=
  ⟨(detect_container_sched (bareEnv 7) (by decide) (by decide) (by decide) (by decide)).1
      (by decide),
   ((detect_container_sched (fileEnv 7 [("/proc/1/sched", "")] none)
      (by decide) (by decide) (by decide) (by decide)).2 (by decide)).1 (by decide),
   ((detect_container_sched (fileEnv 7 [("/proc/1/sched", "(1")] none)
      (by decide) (by decide) (by decide) (by decide)).2 (by decide)).2.1
      (by decide) (by decide),
   ((detect_container_sched hostSchedEnv
      (by decide) (by decide) (by decide) (by decide)).2 (by decide)).2.2 (by decide)⟩

/-- C10 as stated fails: checks 1-4 are not definitive, the content of
`/proc/1/sched` is the single byte NUL, so it is non-empty and not prefixed by
`(1,`, and yet the result is not-found. -/
theorem detect_container_sched_nul_not_found :
    nulSchedEnv.fileExists "/.dockerenv" = false ∧
    ¬ (nulSchedEnv.fileExists "/proc/vz" = true ∧ nulSchedEnv.fileExists "/proc/bc" = false) ∧
    nulSchedEnv.getpid ≠ 1 ∧
    nulSchedEnv.fileExists "/run/systemd/container" = false ∧
    nulSchedEnv.fileExists "/proc/1/sched" = true ∧
    nulSchedEnv.unsafeReadFile "/proc/1/sched" ≠ "" ∧
    ¬ ("(1,".data <+: (nulSchedEnv.unsafeReadFile "/proc/1/sched").data) ∧
    (detect_container nulSchedEnv CONTAINER_NOT_CHECKED).result = false := by
  decide

/-! ### Properties of the logging agent -/

theorem privilegeCalls_append (a b : List Event) :
    privilegeCalls (a ++ b) = privilegeCalls a ++ privilegeCalls b := by
  simp [privilegeCalls]

theorem chmodLoop_mem (path : String) (mode : Nat) (answers : List (Int × Nat)) :
    ∀ e ∈ (chmodLoop path mode answers).1, e = Event.chmod path mode := by
  induction answers with
  | nil => intro e h; simp [chmodLoop] at h
  | cons a rest ih =>
    intro e h
    obtain ⟨ret, errno⟩ := a
    simp only [chmodLoop] at h
    split_ifs at h with hc
    · simp only [List.mem_cons] at h
      rcases h with rfl | h
      · rfl
      · exact ih e h
    · simpa using h

theorem chmodStep_mem (w : World) (address : String) :
    ∀ e ∈ (chmodStep w address).1,
      e = Event.chmod (parseUnixSocketAddress address) socketMode := by
  intro e h
  simp only [chmodStep] at h
  split_ifs at h
  · exact chmodLoop_mem _ _ _ e h
  · simp at h

theorem createEventLoop_mem (w : World) :
    ∀ e ∈ (createEventLoop w).1, ∃ flags, e = Event.ev_default_loop flags := by
  intro e h
  simp only [createEventLoop] at h
  split_ifs at h <;> simp at h <;> aesop

theorem resolveGroup_mem (w : World) (username groupname : String) (user : Passwd) :
    ∀ e ∈ (resolveGroup w username groupname user).1,
      (∃ gid, e = Event.getgrgid gid) ∨ (∃ name, e = Event.getgrnam name) := by
  intro e h
  simp only [resolveGroup] at h
  split_ifs at h <;> split at h <;> simp at h <;> aesop

/-- The calls that callbacks of the reactor make. -/
theorem runCallback_mem (w : World) (watcher : Nat) (revents : Int) (cb : Callback) :
    ∀ e ∈ (runCallback w watcher revents cb).1,
      e = Event.killpg w.getpgrp SIGKILL ∨ e = Event._exit 2 ∨
      e = Event.P_DEBUG "Caught signal, exiting..." ∨ e = Event.ev_unloop EVUNLOOP_ONE ∨
      e = Event.dump ∨ e = Event.flush := by
  intro e h
  cases cb
  · simp only [runCallback, feedbackFdBecameReadable] at h
    split_ifs at h <;> simp at h <;> aesop
  · simp [runCallback, caughtExitSignal] at h
    aesop
  · simp [runCallback, printInfo] at h
    aesop

theorem dispatch_mem (w : World) (ws : Watchers) (i : Incoming) :
    ∀ e ∈ (dispatch w ws i).1,
      e = Event.killpg w.getpgrp SIGKILL ∨ e = Event._exit 2 ∨
      e = Event.P_DEBUG "Caught signal, exiting..." ∨ e = Event.ev_unloop EVUNLOOP_ONE ∨
      e = Event.dump ∨ e = Event.flush ∨ e = Event.serverActivity := by
  intro e h
  unfold dispatch at h
  split at h
  · split at h
    · have := runCallback_mem _ _ _ _ e h; aesop
    · simp at h
  · simp at h; simp [h]
  · simp at h; simp [h]
  · split at h
    · have := runCallback_mem _ _ _ _ e h; aesop
    · simp at h

theorem ev_loop_mem (w : World) (ws : Watchers) (incoming : List Incoming) :
    ∀ e ∈ (ev_loop w ws incoming).1,
      e = Event.killpg w.getpgrp SIGKILL ∨ e = Event._exit 2 ∨
      e = Event.P_DEBUG "Caught signal, exiting..." ∨ e = Event.ev_unloop EVUNLOOP_ONE ∨
      e = Event.dump ∨ e = Event.flush ∨ e = Event.serverActivity := by
  induction incoming with
  | nil => intro e h; simp [ev_loop] at h
  | cons i rest ih =>
    intro e h
    have hd := dispatch_mem w ws i
    unfold ev_loop at h
    split at h
    next t heq =>
      rw [heq] at hd
      simp only [List.mem_append] at h
      rcases h with h | h
      · exact hd e h
      · exact ih e h
    all_goals
      next t _ heq =>
        rw [heq] at hd
        exact hd e h

/-! #### The log of `main` follows the order of its steps -/

theorem Staged.snoc {k n : Nat} {l p : List Event} (hl : Staged k l)
    (hp : ∀ e ∈ p, e.phase = n) (hk : k ≤ n) : Staged n (l ++ p) := by
  refine ⟨?_, ?_⟩
  · intro e he
    rcases List.mem_append.1 he with h | h
    · exact le_trans (hl.1 e h) hk
    · exact le_of_eq (hp e h)
  · rw [List.pairwise_append]
    refine ⟨hl.2, ?_, ?_⟩
    · rw [List.pairwise_iff_forall_sublist]
      intro a b hab
      have ha := hp a (hab.subset (List.mem_cons_self a [b]))
      have hb := hp b (hab.subset (by simp))
      omega
    · intro a ha b hb
      have h1 := hl.1 a ha
      have h2 := hp b hb
      omega

theorem Staged.not_mem {k : Nat} {l : List Event} (hl : Staged k l) {e : Event}
    (he : k < e.phase) : e ∉ l := by
  intro h
  have := hl.1 e h
  omega

theorem Staged.mono {k n : Nat} {l : List Event} (hl : Staged k l) (hk : k ≤ n) :
    Staged n l :=
  ⟨fun e he => le_trans (hl.1 e he) hk, hl.2⟩

theorem lowerPrivilege_phase (w : World) (u : String) (user : Passwd) (group : Group) :
    ∀ e ∈ lowerPrivilege w u user group, e.phase = 7 := by
  intro e h
  simp only [lowerPrivilege] at h
  split_ifs at h <;> simp at h <;> rcases h with h | h <;> aesop

theorem ev_loop_phase (w : World) (ws : Watchers) (inc : List Incoming) :
    ∀ e ∈ (ev_loop w ws inc).1, e.phase = 12 := by
  intro e h
  rcases ev_loop_mem w ws inc e h with h | h | h | h | h | h | h <;> subst h <;> rfl

theorem staged_logAtEventLoop (w : World) : Staged 1 (logAtEventLoop w) := by
  have h0 : Staged 0 [Event.getpwuid w.geteuid, Event.curl_global_init] := by
    simp [Staged, Event.phase]
  refine h0.snoc ?_ (by decide)
  intro e h
  obtain ⟨f, rfl⟩ := createEventLoop_mem w e h
  rfl

theorem staged_logAtSocket (o : Options) (w : World) : Staged 2 (logAtSocket o w) := by
  refine (staged_logAtEventLoop w).snoc ?_ (by decide)
  intro e h
  simp at h
  rcases h with rfl | rfl <;> rfl

theorem staged_logAtChmod (o : Options) (w : World) : Staged 3 (logAtChmod o w) := by
  refine (staged_logAtSocket o w).snoc ?_ (by decide)
  intro e h
  rw [chmodStep_mem w _ e h]
  rfl

theorem staged_logAtUser (o : Options) (w : World) (me : String) :
    Staged 4 (logAtUser o w me) := by
  refine (staged_logAtChmod o w).snoc ?_ (by decide)
  intro e h
  simp at h
  subst h
  rfl

theorem staged_logAtGroup (o : Options) (w : World) (me : String) (user : Passwd) :
    Staged 5 (logAtGroup o w me user) := by
  refine (staged_logAtUser o w me).snoc ?_ (by decide)
  intro e h
  rcases resolveGroup_mem w _ _ user e h with ⟨x, rfl⟩ | ⟨x, rfl⟩ <;> rfl

theorem makeDirEvents_phase (o : Options) (w : World) (user : Passwd) (group : Group) :
    ∀ e ∈ makeDirEvents o w user group, e.phase = 6 := by
  intro e h
  simp only [makeDirEvents] at h
  split_ifs at h <;> simp at h <;> subst h <;> rfl

theorem staged_logAtLogDir (o : Options) (w : World) (me : String) (user : Passwd)
    (group : Group) : Staged 6 (logAtLogDir o w me user group) := by
  refine (((staged_logAtGroup o w me user).snoc (n := 6) (p := [Event.getFileType _])
    ?_ (by decide)).snoc (makeDirEvents_phase o w user group) (le_refl 6))
  intro e h
  simp at h
  subst h
  rfl

theorem lowerPrivilegeEvents_phase (o : Options) (w : World) (me : String) (user : Passwd)
    (group : Group) : ∀ e ∈ lowerPrivilegeEvents o w me user group, e.phase = 7 := by
  intro e h
  simp only [lowerPrivilegeEvents] at h
  split_ifs at h
  · exact lowerPrivilege_phase _ _ _ _ e h
  · simp at h

theorem staged_logAtServer (o : Options) (w : World) (me : String) (user : Passwd)
    (group : Group) (fd : Nat) : Staged 8 (logAtServer o w me user group fd) := by
  refine (((staged_logAtLogDir o w me user group).snoc
    (lowerPrivilegeEvents_phase o w me user group) (by decide)).snoc (n := 8) ?_ (by decide))
  intro e h
  simp at h
  rcases h with rfl | rfl <;> rfl

theorem feedbackEvents_phase (w : World) : ∀ e ∈ feedbackEvents w, e.phase = 9 := by
  intro e h
  simp only [feedbackEvents] at h
  split_ifs at h <;> simp at h
  rcases h with rfl | rfl <;> rfl

theorem staged_logAtFeedback (o : Options) (w : World) (me : String) (user : Passwd)
    (group : Group) (fd : Nat) : Staged 9 (logAtFeedback o w me user group fd) :=
  (staged_logAtServer o w me user group fd).snoc (feedbackEvents_phase w) (by decide)

theorem staged_logAtLoop (o : Options) (w : World) (me : String) (user : Passwd)
    (group : Group) (fd : Nat) : Staged 10 (logAtLoop o w me user group fd) := by
  refine (staged_logAtFeedback o w me user group fd).snoc ?_ (by decide)
  intro e h
  simp [signalWatcherEvents] at h
  rcases h with rfl | rfl | rfl <;> rfl

theorem staged_logAfterLoop (o : Options) (w : World) (me : String) (user : Passwd)
    (group : Group) (fd : Nat) : Staged 12 (logAfterLoop o w me user group fd) := by
  refine (((staged_logAtLoop o w me user group fd).snoc (n := 11) (p := [Event.ev_loop])
    ?_ (by decide)).snoc (ev_loop_phase w _ _) (by decide))
  intro e h
  simp at h
  subst h
  rfl

theorem staged_caught (w : World) {k : Nat} {l : List Event} (what : String)
    (hl : Staged k l) (hk : k ≤ 13) : Staged 13 (caught w l what).trace := by
  refine hl.snoc ?_ hk
  intro e h
  simp at h
  subst h
  rfl

theorem staged_afterLoop (w : World) {l : List Event} (loopEnd : LoopEnd)
    (hl : Staged 12 l) : Staged 13 (afterLoop w l loopEnd).trace := by
  cases loopEnd with
  | blocked => exact hl.mono (by decide)
  | returned => exact hl.mono (by decide)
  | exited status => exact hl.mono (by decide)
  | killed sig => exact hl.mono (by decide)
  | threw what => exact staged_caught w what hl (by decide)

/-- The events of every run of `main` come in the order of its steps. -/
theorem main_trace_staged (o : Options) (w : World) : Staged 13 (main o w).trace := by
  unfold main
  repeat' split
  · simp [Staged, Event.phase]
  · exact staged_caught w _ (staged_logAtEventLoop w) (by decide)
  · exact staged_caught w _ (staged_logAtSocket o w) (by decide)
  · exact (staged_logAtChmod o w).mono (by decide)
  · exact staged_caught w _ (staged_logAtUser o w _) (by decide)
  · exact staged_caught w _ (staged_logAtGroup o w _ _) (by decide)
  · exact staged_caught w _ (staged_logAtLogDir o w _ _ _) (by decide)
  · exact staged_caught w _ (staged_logAtServer o w _ _ _ _) (by decide)
  · exact staged_caught w _ (staged_logAtFeedback o w _ _ _ _) (by decide)
  · exact staged_afterLoop w _ (staged_logAfterLoop o w _ _ _ _)

/-- In a log that follows the order of the steps, what comes before an event
belongs to no later step, and what comes after it to no earlier one. -/
theorem Staged.split {k : Nat} {pre post : List Event} {x : Event}
    (h : Staged k (pre ++ x :: post)) :
    (∀ a ∈ pre, a.phase ≤ x.phase) ∧ (∀ b ∈ post, x.phase ≤ b.phase) := by
  have hp := h.2
  rw [List.pairwise_append] at hp
  obtain ⟨_, h2, h3⟩ := hp
  refine ⟨fun a ha => h3 a ha x (List.mem_cons_self x post), ?_⟩
  intro b hb
  exact (List.pairwise_cons.1 h2).1 b hb

theorem ev_loop_not_mem_caught (w : World) {k : Nat} {l : List Event} (what : String)
    (hl : Staged k l) (hk : k < 11) : Event.ev_loop ∉ (caught w l what).trace := by
  intro h
  simp only [caught, List.mem_append, List.mem_singleton] at h
  rcases h with h | h
  · exact hl.not_mem (e := Event.ev_loop) hk h
  · cases h

/-- A run that calls `ev_loop` has been through the whole setup: every step
before it has succeeded, and the run is the complete setup followed by the
loop. -/
theorem main_of_ev_loop (o : Options) (w : World)
    (h : Event.ev_loop ∈ (main o w).trace) :
    ∃ me user group fd,
      myself w = Except.ok me ∧
      (createEventLoop w).2 = true ∧
      w.createServer o.logging_agent_address = Except.ok fd ∧
      (chmodStep w o.logging_agent_address).2 = true ∧
      w.getpwnam (usernameOf o me) = some user ∧
      (resolveGroup w (usernameOf o me) (groupnameOf o) user).2 = Except.ok group ∧
      (w.loggingDirNonexistent = true → w.makeDirTree = Except.ok ()) ∧
      w.newLoggingServer = Except.ok () ∧
      (w.feedbackFdAvailable = true → w.feedbackWrite = Except.ok ()) ∧
      main o w = afterLoop w (logAfterLoop o w me user group fd)
        (ev_loop w (startedWatchers w) w.incoming).2 := by
  cases h0 : myself w with
  | error what => simp [main, h0] at h
  | ok me =>
  cases h1 : (createEventLoop w).2 with
  | false =>
    simp only [main, h0, h1] at h
    exact absurd h (ev_loop_not_mem_caught w _ (staged_logAtEventLoop w) (by decide))
  | true =>
  cases h2 : w.createServer o.logging_agent_address with
  | error what =>
    simp only [main, h0, h1, h2] at h
    exact absurd h (ev_loop_not_mem_caught w _ (staged_logAtSocket o w) (by decide))
  | ok fd =>
  cases h3 : (chmodStep w o.logging_agent_address).2 with
  | false =>
    simp only [main, h0, h1, h2, h3] at h
    exact absurd h ((staged_logAtChmod o w).not_mem (by decide))
  | true =>
  cases h4 : w.getpwnam (usernameOf o me) with
  | none =>
    simp only [main, h0, h1, h2, h3, h4] at h
    exact absurd h (ev_loop_not_mem_caught w _ (staged_logAtUser o w me) (by decide))
  | some user =>
  cases h5 : (resolveGroup w (usernameOf o me) (groupnameOf o) user).2 with
  | error what =>
    simp only [main, h0, h1, h2, h3, h4, h5] at h
    exact absurd h (ev_loop_not_mem_caught w _ (staged_logAtGroup o w me user) (by decide))
  | ok group =>
  cases h6 : (if w.loggingDirNonexistent = true then w.makeDirTree else Except.ok ()) with
  | error what =>
    simp only [main, h0, h1, h2, h3, h4, h5, h6] at h
    exact absurd h
      (ev_loop_not_mem_caught w _ (staged_logAtLogDir o w me user group) (by decide))
  | ok u6 =>
  cases h7 : w.newLoggingServer with
  | error what =>
    simp only [main, h0, h1, h2, h3, h4, h5, h6, h7] at h
    exact absurd h
      (ev_loop_not_mem_caught w _ (staged_logAtServer o w me user group fd) (by decide))
  | ok u7 =>
  cases h8 : (if w.feedbackFdAvailable = true then w.feedbackWrite else Except.ok ()) with
  | error what =>
    simp only [main, h0, h1, h2, h3, h4, h5, h6, h7, h8] at h
    exact absurd h
      (ev_loop_not_mem_caught w _ (staged_logAtFeedback o w me user group fd) (by decide))
  | ok u8 =>
  refine ⟨me, user, group, fd, rfl, rfl, rfl, rfl, h4, h5, ?_, rfl, ?_, ?_⟩
  · intro hd
    rw [if_pos hd] at h6
    exact h6
  · intro hf
    rw [if_pos hf] at h8
    exact h8
  · simp only [main, h0, h1, h2, h3, h4, h5, h6, h7, h8]

/-! #### The reactor -/

theorem ev_loop_append (w : World) (ws : Watchers) (quiet rest : List Incoming)
    (hq : ∀ i ∈ quiet, (dispatch w ws i).2 = Effect.returned) :
    ev_loop w ws (quiet ++ rest)
      = (callbackEvents w ws quiet ++ (ev_loop w ws rest).1, (ev_loop w ws rest).2) := by
  induction quiet with
  | nil => simp [callbackEvents]
  | cons i q ih =>
    have hi := hq i (List.mem_cons_self i q)
    have ih2 := ih (fun j hj => hq j (List.mem_cons_of_mem i hj))
    have hd : dispatch w ws i = ((dispatch w ws i).1, Effect.returned) := by
      rw [← hi]
    simp only [List.cons_append, callbackEvents]
    rw [ev_loop, hd, ih2]
    simp

theorem runCallback_returned (w : World) (watcher : Nat) (revents : Int) (cb : Callback)
    (h : (runCallback w watcher revents cb).2 = Effect.returned) :
    runCallback w watcher revents cb = ([Event.dump, Event.flush], Effect.returned) := by
  cases cb
  · simp only [runCallback, feedbackFdBecameReadable] at h
    split_ifs at h
  · simp [runCallback, caughtExitSignal] at h
  · simp [runCallback, printInfo]

theorem dispatch_returned_mem (w : World) (ws : Watchers) (i : Incoming)
    (h : (dispatch w ws i).2 = Effect.returned) :
    ∀ e ∈ (dispatch w ws i).1, e = Event.dump ∨ e = Event.flush ∨ e = Event.serverActivity := by
  intro e he
  cases i with
  | feedbackFdReadable =>
    cases hfb : ws.feedbackFd with
    | none => simp [dispatch, hfb] at he
    | some cb =>
      simp only [dispatch, hfb] at h he
      rw [runCallback_returned _ _ _ _ h] at he
      simp at he
      tauto
  | serverSocketReadable failure =>
    cases failure with
    | none =>
      simp [dispatch] at he
      simp [he]
    | some what => simp [dispatch] at h
  | signal signo =>
    cases hl : ws.signals.lookup signo with
    | none => simp [dispatch, hl] at he
    | some cb =>
      simp only [dispatch, hl] at h he
      rw [runCallback_returned _ _ _ _ h] at he
      simp at he
      tauto

theorem callbackEvents_mem (w : World) (ws : Watchers) (quiet : List Incoming)
    (hq : ∀ i ∈ quiet, (dispatch w ws i).2 = Effect.returned) :
    ∀ e ∈ callbackEvents w ws quiet,
      e = Event.dump ∨ e = Event.flush ∨ e = Event.serverActivity := by
  induction quiet with
  | nil => intro e he; simp [callbackEvents] at he
  | cons i q ih =>
    intro e he
    simp only [callbackEvents, List.mem_append] at he
    rcases he with he | he
    · exact dispatch_returned_mem w ws i (hq i (List.mem_cons_self i q)) e he
    · exact ih (fun j hj => hq j (List.mem_cons_of_mem i hj)) e he

/-- C1, amended: when the reactor, after any events `quiet` that left it
running and with any events `load` still to come, runs
`feedbackFdBecameReadable`, the callback calls `killpg(getpgrp(), SIGKILL)`.
If `killpg` fails, `_exit(2)` follows, these are the last two calls of the run
and the exit status is 2. If `killpg` succeeds, it is the last call of the
run, `_exit` is not called and the process is ended by `SIGKILL`. Either way
the run does not end with exit status 0 or 1, and `ev_unloop` is not called
anywhere in it. -/
theorem feedbackFdBecameReadable_kills_or_exits (o : Options) (w : World)
    (quiet load : List Incoming)
    (hsetup : Event.ev_loop ∈ (main o w).trace)
    (hfd : w.feedbackFdAvailable = true)
    (hinc : w.incoming = quiet ++ Incoming.feedbackFdReadable :: load)
    (hquiet : ∀ i ∈ quiet, (dispatch w (startedWatchers w) i).2 = Effect.returned) :
    (w.killpg ≠ 0 →
      (main o w).outcome = Outcome.exit 2 ∧
      ∃ before, (main o w).trace
        = before ++ [Event.killpg w.getpgrp SIGKILL, Event._exit 2]) ∧
    (w.killpg = 0 →
      (main o w).outcome = Outcome.killed SIGKILL ∧
      (∃ before, (main o w).trace = before ++ [Event.killpg w.getpgrp SIGKILL]) ∧
      ∀ status, Event._exit status ∉ (main o w).trace) ∧
    (main o w).outcome ≠ Outcome.exit 0 ∧
    (main o w).outcome ≠ Outcome.exit 1 ∧
    (∀ how, Event.ev_unloop how ∉ (main o w).trace) := by
  obtain ⟨me, user, group, fd, -, -, -, -, -, -, -, -, -, hmain⟩ := main_of_ev_loop o w hsetup
  have hloop : ev_loop w (startedWatchers w) w.incoming
      = if w.killpg = 0 then
          (callbackEvents w (startedWatchers w) quiet ++ [Event.killpg w.getpgrp SIGKILL],
            LoopEnd.killed SIGKILL)
        else
          (callbackEvents w (startedWatchers w) quiet ++
            [Event.killpg w.getpgrp SIGKILL, Event._exit 2], LoopEnd.exited 2) := by
    rw [hinc, ev_loop_append w _ quiet _ hquiet]
    by_cases hk : w.killpg = 0
    · simp [ev_loop, dispatch, startedWatchers, hfd, runCallback, feedbackFdBecameReadable, hk]
    · simp [ev_loop, dispatch, startedWatchers, hfd, runCallback, feedbackFdBecameReadable, hk]
  have hrun : main o w
      = if w.killpg = 0 then
          ⟨logAtLoop o w me user group fd ++ [Event.ev_loop] ++
            (callbackEvents w (startedWatchers w) quiet ++ [Event.killpg w.getpgrp SIGKILL]),
            Outcome.killed SIGKILL⟩
        else
          ⟨logAtLoop o w me user group fd ++ [Event.ev_loop] ++
            (callbackEvents w (startedWatchers w) quiet ++
              [Event.killpg w.getpgrp SIGKILL, Event._exit 2]), Outcome.exit 2⟩ := by
    rw [hmain, logAfterLoop, hloop]
    split_ifs <;> rfl
  have hsetupLog : ∀ e, 11 < e.phase → e ∉ logAtLoop o w me user group fd ++ [Event.ev_loop] := by
    intro e he hmem
    rcases List.mem_append.1 hmem with hmem | hmem
    · exact (staged_logAtLoop o w me user group fd).not_mem (by omega) hmem
    · simp at hmem
      subst hmem
      simp [Event.phase] at he
  have hquietLog : ∀ e ∈ callbackEvents w (startedWatchers w) quiet,
      e = Event.dump ∨ e = Event.flush ∨ e = Event.serverActivity :=
    callbackEvents_mem w _ quiet hquiet
  refine ⟨?_, ?_, ?_, ?_, ?_⟩
  · intro hk
    rw [hrun, if_neg hk]
    exact ⟨rfl, logAtLoop o w me user group fd ++ [Event.ev_loop] ++
      callbackEvents w (startedWatchers w) quiet, by simp⟩
  · intro hk
    rw [hrun, if_pos hk]
    refine ⟨rfl, ⟨logAtLoop o w me user group fd ++ [Event.ev_loop] ++
      callbackEvents w (startedWatchers w) quiet, by simp⟩, ?_⟩
    intro status hmem
    simp only [List.mem_append] at hmem
    rcases hmem with hmem | hmem | hmem
    · exact hsetupLog _ (by simp [Event.phase]) (List.mem_append.2 hmem)
    · rcases hquietLog _ hmem with h | h | h <;> cases h
    · simp at hmem
  · rw [hrun]
    split_ifs <;> simp
  · rw [hrun]
    split_ifs <;> simp
  · intro how hmem
    rw [hrun] at hmem
    split_ifs at hmem
    all_goals
      simp only [List.mem_append] at hmem
      rcases hmem with hmem | hmem | hmem
      · exact hsetupLog _ (by simp [Event.phase]) (List.mem_append.2 hmem)
      · rcases hquietLog _ hmem with h | h | h <;> cases h
      · simp at hmem

/-- C1 at concrete runs: started as root with the feedback descriptor, the
reactor handles `SIGINFO` and a socket event, then the feedback descriptor
becomes readable while `SIGTERM` is still to come. Where `killpg` fails the
run ends with `_exit(2)`; where it succeeds the process is killed. -/
theorem feedbackFdBecameReadable_kills_or_exits_witness :
    (main unixOptions (killpgFailsWorld [Incoming.signal SIGINFO,
      Incoming.serverSocketReadable none, Incoming.feedbackFdReadable,
      Incoming.signal SIGTERM])).outcome = Outcome.exit 2 ∧
    (main unixOptions (rootWorld [Incoming.signal SIGINFO,
      Incoming.serverSocketReadable none, Incoming.feedbackFdReadable,
      Incoming.signal SIGTERM])).outcome = Outcome.killed SIGKILL :=
  ⟨((feedbackFdBecameReadable_kills_or_exits unixOptions
      (killpgFailsWorld [Incoming.signal SIGINFO, Incoming.serverSocketReadable none,
        Incoming.feedbackFdReadable, Incoming.signal SIGTERM])
      [Incoming.signal SIGINFO, Incoming.serverSocketReadable none] [Incoming.signal SIGTERM]
      (by decide) rfl rfl (by decide)).1 (by decide)).1,
   ((feedbackFdBecameReadable_kills_or_exits unixOptions
      (rootWorld [Incoming.signal SIGINFO, Incoming.serverSocketReadable none,
        Incoming.feedbackFdReadable, Incoming.signal SIGTERM])
      [Incoming.signal SIGINFO, Incoming.serverSocketReadable none] [Incoming.signal SIGTERM]
      (by decide) rfl rfl (by decide)).2.1 (by decide)).1⟩

/-- C1 as stated fails: the setup completes with the feedback descriptor, the
descriptor becomes readable and the callback runs; `killpg` succeeds, so the
process is ended by `SIGKILL`: the run does not end with exit status 2, and
`_exit(2)` is not called. -/
theorem feedbackFdBecameReadable_killed_not_exit_2 :
    (rootWorld [Incoming.feedbackFdReadable]).feedbackFdAvailable = true ∧
    (rootWorld [Incoming.feedbackFdReadable]).killpg = 0 ∧
    Event.ev_loop ∈ (main unixOptions (rootWorld [Incoming.feedbackFdReadable])).trace ∧
    Event.killpg 500 SIGKILL
      ∈ (main unixOptions (rootWorld [Incoming.feedbackFdReadable])).trace ∧
    Event._exit 2 ∉ (main unixOptions (rootWorld [Incoming.feedbackFdReadable])).trace ∧
    (main unixOptions (rootWorld [Incoming.feedbackFdReadable])).outcome
      = Outcome.killed SIGKILL ∧
    (main unixOptions (rootWorld [Incoming.feedbackFdReadable])).outcome ≠ Outcome.exit 2 := by
  decide

theorem afterLoop_trace (w : World) (l : List Event) (loopEnd : LoopEnd) :
    ∃ suffix, (afterLoop w l loopEnd).trace = l ++ suffix := by
  cases loopEnd with
  | blocked => exact ⟨[], by simp [afterLoop]⟩
  | returned => exact ⟨[], by simp [afterLoop]⟩
  | exited status => exact ⟨[], by simp [afterLoop]⟩
  | killed sig => exact ⟨[], by simp [afterLoop]⟩
  | threw what => exact ⟨_, rfl⟩

theorem afterLoop_trace_cases (w : World) (l : List Event) (loopEnd : LoopEnd) :
    ∃ suffix, (afterLoop w l loopEnd).trace = l ++ suffix ∧
      (suffix = [] ∨ ∃ message, suffix = [Event.P_ERROR message]) := by
  cases loopEnd with
  | blocked => exact ⟨[], by simp [afterLoop], Or.inl rfl⟩
  | returned => exact ⟨[], by simp [afterLoop], Or.inl rfl⟩
  | exited status => exact ⟨[], by simp [afterLoop], Or.inl rfl⟩
  | killed sig => exact ⟨[], by simp [afterLoop], Or.inl rfl⟩
  | threw what => exact ⟨_, rfl, Or.inr ⟨_, rfl⟩⟩

theorem ev_loop_serverSocketReadable (w : World) (ws : Watchers) (failure : Option String)
    (rest : List Incoming) :
    ∃ more, (ev_loop w ws (Incoming.serverSocketReadable failure :: rest)).1
      = Event.serverActivity :: more := by
  cases failure with
  | none => exact ⟨(ev_loop w ws rest).1, by simp [ev_loop, dispatch]⟩
  | some what => exact ⟨[], by simp [ev_loop, dispatch]⟩

/-- C8 (with `ev_loop` and `ev_unloop` modelled from the spec): for a signal
with a watcher, handled after any events `quiet` that left the reactor
running, the reactor leaves the running state exactly when the signal is
`SIGINT` or `SIGTERM`; then `caughtExitSignal` unwinds the loop, `ev_loop`
returns and `main` returns 0, and neither `killpg` nor `_exit` is called in
the run. On `SIGINFO` the callback only dumps the server to standard output
and flushes, and the loop goes on with the events that follow, so that a
socket event coming next is handled. -/
theorem signal_while_running (o : Options) (w : World) (quiet load : List Incoming)
    (signo : Nat)
    (hsetup : Event.ev_loop ∈ (main o w).trace)
    (hinc : w.incoming = quiet ++ Incoming.signal signo :: load)
    (hquiet : ∀ i ∈ quiet, (dispatch w (startedWatchers w) i).2 = Effect.returned)
    (hhandled : signo = SIGINT ∨ signo = SIGTERM ∨ signo = SIGINFO) :
    (ReactorState.after (dispatch w (startedWatchers w) (Incoming.signal signo)).2
        ≠ ReactorState.running ↔ signo = SIGINT ∨ signo = SIGTERM) ∧
    (signo = SIGINT ∨ signo = SIGTERM →
      dispatch w (startedWatchers w) (Incoming.signal signo)
        = ([Event.P_DEBUG "Caught signal, exiting...", Event.ev_unloop EVUNLOOP_ONE],
           Effect.unlooped) ∧
      (main o w).outcome = Outcome.exit 0 ∧
      (∃ before, (main o w).trace = before ++
        [Event.P_DEBUG "Caught signal, exiting...", Event.ev_unloop EVUNLOOP_ONE]) ∧
      (∀ pgrp sig, Event.killpg pgrp sig ∉ (main o w).trace) ∧
      (∀ status, Event._exit status ∉ (main o w).trace)) ∧
    (signo = SIGINFO →
      dispatch w (startedWatchers w) (Incoming.signal signo)
        = ([Event.dump, Event.flush], Effect.returned) ∧
      (∃ before after, (main o w).trace = before ++ [Event.dump, Event.flush] ++
        (ev_loop w (startedWatchers w) load).1 ++ after) ∧
      (∀ failure rest, load = Incoming.serverSocketReadable failure :: rest →
        ∃ before after, (main o w).trace
          = before ++ [Event.dump, Event.flush, Event.serverActivity] ++ after)) := by
  obtain ⟨me, user, group, fd, -, -, -, -, -, -, -, -, -, hmain⟩ := main_of_ev_loop o w hsetup
  have hint : dispatch w (startedWatchers w) (Incoming.signal SIGINT)
      = ([Event.P_DEBUG "Caught signal, exiting...", Event.ev_unloop EVUNLOOP_ONE],
         Effect.unlooped) := by
    simp [dispatch, startedWatchers, List.lookup, runCallback, caughtExitSignal]
  have hterm : dispatch w (startedWatchers w) (Incoming.signal SIGTERM)
      = ([Event.P_DEBUG "Caught signal, exiting...", Event.ev_unloop EVUNLOOP_ONE],
         Effect.unlooped) := by
    simp [dispatch, startedWatchers, List.lookup, runCallback, caughtExitSignal, SIGINT, SIGTERM]
  have hinfo : dispatch w (startedWatchers w) (Incoming.signal SIGINFO)
      = ([Event.dump, Event.flush], Effect.returned) := by
    simp [dispatch, startedWatchers, List.lookup, runCallback, printInfo, SIGINT, SIGTERM,
      SIGINFO]
  refine ⟨?_, ?_, ?_⟩
  · rcases hhandled with h | h | h <;> subst h
    · simp [hint, ReactorState.after]
    · simp [hterm, ReactorState.after]
    · rw [hinfo]
      simp [ReactorState.after, SIGINFO, SIGINT, SIGTERM]
  · intro hsig
    have hd : dispatch w (startedWatchers w) (Incoming.signal signo)
        = ([Event.P_DEBUG "Caught signal, exiting...", Event.ev_unloop EVUNLOOP_ONE],
           Effect.unlooped) := by
      rcases hsig with h | h <;> subst h
      · exact hint
      · exact hterm
    have hloop : ev_loop w (startedWatchers w) w.incoming
        = (callbackEvents w (startedWatchers w) quiet ++
            [Event.P_DEBUG "Caught signal, exiting...", Event.ev_unloop EVUNLOOP_ONE],
           LoopEnd.returned) := by
      rw [hinc, ev_loop_append w _ quiet _ hquiet]
      simp [ev_loop, hd]
    have hrun : main o w = ⟨logAtLoop o w me user group fd ++ [Event.ev_loop] ++
        (callbackEvents w (startedWatchers w) quiet ++
          [Event.P_DEBUG "Caught signal, exiting...", Event.ev_unloop EVUNLOOP_ONE]),
        Outcome.exit 0⟩ := by
      rw [hmain, logAfterLoop, hloop]
      rfl
    refine ⟨hd, by rw [hrun], ?_, ?_, ?_⟩
    · refine ⟨logAtLoop o w me user group fd ++ [Event.ev_loop] ++
        callbackEvents w (startedWatchers w) quiet, ?_⟩
      rw [hrun]
      simp
    · intro pgrp sig hmem
      rw [hrun] at hmem
      simp only [List.mem_append] at hmem
      rcases hmem with (hmem | hmem) | hmem | hmem
      · exact (staged_logAtLoop o w me user group fd).not_mem (e := Event.killpg pgrp sig)
          (by simp [Event.phase]) hmem
      · simp at hmem
      · rcases callbackEvents_mem w _ quiet hquiet _ hmem with h | h | h <;> cases h
      · simp at hmem
    · intro status hmem
      rw [hrun] at hmem
      simp only [List.mem_append] at hmem
      rcases hmem with (hmem | hmem) | hmem | hmem
      · exact (staged_logAtLoop o w me user group fd).not_mem (e := Event._exit status)
          (by simp [Event.phase]) hmem
      · simp at hmem
      · rcases callbackEvents_mem w _ quiet hquiet _ hmem with h | h | h <;> cases h
      · simp at hmem
  · intro hsig
    subst hsig
    have hloop : ev_loop w (startedWatchers w) w.incoming
        = (callbackEvents w (startedWatchers w) quiet ++
            ([Event.dump, Event.flush] ++ (ev_loop w (startedWatchers w) load).1),
           (ev_loop w (startedWatchers w) load).2) := by
      rw [hinc, ev_loop_append w _ quiet _ hquiet]
      simp [ev_loop, hinfo]
    obtain ⟨suffix, hsuffix⟩ := afterLoop_trace w (logAfterLoop o w me user group fd)
      (ev_loop w (startedWatchers w) w.incoming).2
    have htrace : (main o w).trace = (logAtLoop o w me user group fd ++ [Event.ev_loop] ++
        callbackEvents w (startedWatchers w) quiet) ++ [Event.dump, Event.flush] ++
        (ev_loop w (startedWatchers w) load).1 ++ suffix := by
      rw [hmain, hsuffix, logAfterLoop, hloop]
      simp
    refine ⟨hinfo, ⟨_, _, htrace⟩, ?_⟩
    intro failure rest hload
    obtain ⟨more, hmore⟩ :=
      ev_loop_serverSocketReadable w (startedWatchers w) failure rest
    refine ⟨logAtLoop o w me user group fd ++ [Event.ev_loop] ++
        callbackEvents w (startedWatchers w) quiet, more ++ suffix, ?_⟩
    rw [htrace, hload, hmore]
    simp

/-- C8 at concrete runs: `SIGINFO`, a socket event, then `SIGTERM`. -/
theorem signal_while_running_witness :
    (main unixOptions (rootWorld [Incoming.signal SIGINFO, Incoming.serverSocketReadable none,
      Incoming.signal SIGTERM])).outcome = Outcome.exit 0 ∧
    (∃ before after, (main unixOptions (rootWorld [Incoming.signal SIGINFO,
      Incoming.serverSocketReadable none, Incoming.signal SIGTERM])).trace
        = before ++ [Event.dump, Event.flush, Event.serverActivity] ++ after) :=
  ⟨((signal_while_running unixOptions
      (rootWorld [Incoming.signal SIGINFO, Incoming.serverSocketReadable none,
        Incoming.signal SIGTERM])
      [Incoming.signal SIGINFO, Incoming.serverSocketReadable none] [] SIGTERM
      (by decide) rfl (by decide) (Or.inr (Or.inl rfl))).2.1 (Or.inr rfl)).2.1,
   ((signal_while_running unixOptions
      (rootWorld [Incoming.signal SIGINFO, Incoming.serverSocketReadable none,
        Incoming.signal SIGTERM])
      [] [Incoming.serverSocketReadable none, Incoming.signal SIGTERM] SIGINFO
      (by decide) rfl (by decide) (Or.inr (Or.inr rfl))).2.2 rfl).2.2 none
        [Incoming.signal SIGTERM] rfl⟩

/-! #### The events of one step -/

theorem atPhase_append (k : Nat) (a b : List Event) :
    atPhase k (a ++ b) = atPhase k a ++ atPhase k b := by
  simp [atPhase]

theorem mem_atPhase {e : Event} {l : List Event} (h : e ∈ l) : e ∈ atPhase e.phase l := by
  simp [atPhase, h]

theorem atPhase_of_phase (k n : Nat) (p : List Event) (hp : ∀ e ∈ p, e.phase = n) :
    atPhase k p = if n = k then p else [] := by
  split_ifs with h
  · subst h
    simp only [atPhase, List.filter_eq_self]
    intro e he
    simp [hp e he]
  · simp only [atPhase, List.filter_eq_nil_iff]
    intro e he
    simp [hp e he, h]

theorem atPhase_createEventLoop (k : Nat) (w : World) :
    atPhase k (createEventLoop w).1 = if 1 = k then (createEventLoop w).1 else [] :=
  atPhase_of_phase k 1 _ (fun e h => by obtain ⟨f, rfl⟩ := createEventLoop_mem w e h; rfl)

theorem atPhase_chmodStep (k : Nat) (w : World) (a : String) :
    atPhase k (chmodStep w a).1 = if 3 = k then (chmodStep w a).1 else [] :=
  atPhase_of_phase k 3 _ (fun e h => by rw [chmodStep_mem w a e h]; rfl)

theorem atPhase_resolveGroup (k : Nat) (w : World) (u g : String) (user : Passwd) :
    atPhase k (resolveGroup w u g user).1
      = if 5 = k then (resolveGroup w u g user).1 else [] :=
  atPhase_of_phase k 5 _ (fun e h => by
    rcases resolveGroup_mem w u g user e h with ⟨x, rfl⟩ | ⟨x, rfl⟩ <;> rfl)

theorem atPhase_makeDirEvents (k : Nat) (o : Options) (w : World) (user : Passwd)
    (group : Group) :
    atPhase k (makeDirEvents o w user group)
      = if 6 = k then makeDirEvents o w user group else [] :=
  atPhase_of_phase k 6 _ (makeDirEvents_phase o w user group)

theorem atPhase_lowerPrivilegeEvents (k : Nat) (o : Options) (w : World) (me : String)
    (user : Passwd) (group : Group) :
    atPhase k (lowerPrivilegeEvents o w me user group)
      = if 7 = k then lowerPrivilegeEvents o w me user group else [] :=
  atPhase_of_phase k 7 _ (lowerPrivilegeEvents_phase o w me user group)

theorem atPhase_feedbackEvents (k : Nat) (w : World) :
    atPhase k (feedbackEvents w) = if 9 = k then feedbackEvents w else [] :=
  atPhase_of_phase k 9 _ (feedbackEvents_phase w)

theorem atPhase_ev_loop (k : Nat) (w : World) (ws : Watchers) (inc : List Incoming) :
    atPhase k (ev_loop w ws inc).1 = if 12 = k then (ev_loop w ws inc).1 else [] :=
  atPhase_of_phase k 12 _ (ev_loop_phase w ws inc)

theorem atPhase_cons (k : Nat) (e : Event) (l : List Event) :
    atPhase k (e :: l) = if e.phase = k then e :: atPhase k l else atPhase k l := by
  simp only [atPhase, List.filter_cons]
  split_ifs <;> simp_all

theorem atPhase_nil (k : Nat) : atPhase k [] = [] := rfl

theorem atPhase_afterLoop (k : Nat) (w : World) (l : List Event) (loopEnd : LoopEnd)
    (hk : k ≠ 13) : atPhase k (afterLoop w l loopEnd).trace = atPhase k l := by
  cases loopEnd <;> simp [afterLoop, caught, atPhase_append, atPhase_cons, atPhase_nil,
    Event.phase, Ne.symm hk]

theorem atPhase_caught (k : Nat) (w : World) (l : List Event) (what : String)
    (hk : k ≠ 13) : atPhase k (caught w l what).trace = atPhase k l := by
  simp [caught, atPhase_append, atPhase_cons, atPhase_nil, Event.phase, Ne.symm hk]

/-- Every `chmod` of a run is one of the `chmod` step. -/
theorem main_atPhase_chmod (o : Options) (w : World) :
    atPhase 3 (main o w).trace = [] ∨
    atPhase 3 (main o w).trace = (chmodStep w o.logging_agent_address).1 := by
  unfold main
  repeat' split
  all_goals
    simp [atPhase_afterLoop, atPhase_caught, logAfterLoop, logAtLoop, logAtFeedback, logAtServer,
      logAtLogDir, logAtGroup, logAtUser, logAtChmod, logAtSocket, logAtEventLoop,
      signalWatcherEvents, atPhase_append, atPhase_cons, atPhase_nil, atPhase_createEventLoop,
      atPhase_chmodStep, atPhase_resolveGroup, atPhase_makeDirEvents,
      atPhase_lowerPrivilegeEvents, atPhase_feedbackEvents, atPhase_ev_loop, Event.phase]

/-- Every `getpwnam` of a run is the one call with the configured user name. -/
theorem main_atPhase_getpwnam (o : Options) (w : World) :
    atPhase 4 (main o w).trace = [] ∨
    ∃ me, myself w = Except.ok me ∧
      atPhase 4 (main o w).trace = [Event.getpwnam (usernameOf o me)] := by
  unfold main
  repeat' split
  all_goals
    simp [atPhase_afterLoop, atPhase_caught, logAfterLoop, logAtLoop, logAtFeedback, logAtServer,
      logAtLogDir, logAtGroup, logAtUser, logAtChmod, logAtSocket, logAtEventLoop,
      signalWatcherEvents, atPhase_append, atPhase_cons, atPhase_nil, atPhase_createEventLoop,
      atPhase_chmodStep, atPhase_resolveGroup, atPhase_makeDirEvents,
      atPhase_lowerPrivilegeEvents, atPhase_feedbackEvents, atPhase_ev_loop, Event.phase]
  all_goals exact ⟨_, by assumption, rfl⟩

/-- Every event of the feedback step in a run is one of `feedbackEvents`. -/
theorem main_atPhase_feedback (o : Options) (w : World) :
    atPhase 9 (main o w).trace = [] ∨ atPhase 9 (main o w).trace = feedbackEvents w := by
  unfold main
  repeat' split
  all_goals
    simp [atPhase_afterLoop, atPhase_caught, logAfterLoop, logAtLoop, logAtFeedback, logAtServer,
      logAtLogDir, logAtGroup, logAtUser, logAtChmod, logAtSocket, logAtEventLoop,
      signalWatcherEvents, atPhase_append, atPhase_cons, atPhase_nil, atPhase_createEventLoop,
      atPhase_chmodStep, atPhase_resolveGroup, atPhase_makeDirEvents,
      atPhase_lowerPrivilegeEvents, atPhase_feedbackEvents, atPhase_ev_loop, Event.phase]

theorem chmodLoop_done_mem (path : String) (mode : Nat) (answers : List (Int × Nat))
    (h : (chmodLoop path mode answers).2 = true) :
    Event.chmod path mode ∈ (chmodLoop path mode answers).1 := by
  cases answers with
  | nil => simp [chmodLoop] at h
  | cons a rest =>
    obtain ⟨ret, errno⟩ := a
    simp only [chmodLoop]
    split_ifs <;> simp

theorem chmodStep_done_mem (w : World) (address : String)
    (hu : getSocketAddressType address = ServerAddressType.SAT_UNIX)
    (h : (chmodStep w address).2 = true) :
    Event.chmod (parseUnixSocketAddress address) socketMode ∈ (chmodStep w address).1 := by
  simp only [chmodStep, hu, if_true] at h ⊢
  exact chmodLoop_done_mem _ _ _ h

theorem chmodStep_unix_of_mem (w : World) (address : String) (e : Event)
    (h : e ∈ (chmodStep w address).1) :
    getSocketAddressType address = ServerAddressType.SAT_UNIX := by
  by_contra hu
  simp [chmodStep, hu] at h

theorem socketMode_eq : socketMode = 0o1777 := by decide

/-- C5, amended: every `chmod` that `main` calls is for a filesystem listen
address, on the path of that address, with the mode sticky + rwx for owner,
group and others (octal 01777), no bit more and no bit less; and a run with
such an address that completes the setup has called it. -/
theorem main_chmod_mode (o : Options) (w : World) :
    (∀ path mode, Event.chmod path mode ∈ (main o w).trace →
      getSocketAddressType o.logging_agent_address = ServerAddressType.SAT_UNIX ∧
      path = parseUnixSocketAddress o.logging_agent_address ∧
      mode = S_ISVTX ||| 0o777 ∧ mode = 0o1777) ∧
    (getSocketAddressType o.logging_agent_address = ServerAddressType.SAT_UNIX →
      Event.ev_loop ∈ (main o w).trace →
      Event.chmod (parseUnixSocketAddress o.logging_agent_address) 0o1777
        ∈ (main o w).trace) := by
  refine ⟨?_, ?_⟩
  · intro path mode hmem
    have h3 := mem_atPhase hmem
    have hphase : (Event.chmod path mode).phase = 3 := rfl
    rw [hphase] at h3
    rcases main_atPhase_chmod o w with h | h
    · rw [h] at h3
      cases h3
    · rw [h] at h3
      have heq := chmodStep_mem w _ _ h3
      have hu := chmodStep_unix_of_mem w _ _ h3
      simp only [Event.chmod.injEq] at heq
      refine ⟨hu, heq.1, ?_, ?_⟩
      · rw [heq.2]; decide
      · rw [heq.2]; decide
  · intro hu hloop
    obtain ⟨me, user, group, fd, -, -, -, h3, -, -, -, -, -, hmain⟩ :=
      main_of_ev_loop o w hloop
    obtain ⟨suffix, hs⟩ := afterLoop_trace w (logAfterLoop o w me user group fd)
      (ev_loop w (startedWatchers w) w.incoming).2
    have hc := chmodStep_done_mem w _ hu h3
    rw [socketMode_eq] at hc
    rw [hmain, hs]
    simp [logAfterLoop, logAtLoop, logAtFeedback, logAtServer, logAtLogDir, logAtGroup,
      logAtUser, logAtChmod, hc]

/-- C5 at the address `unix:/tmp/t.sock`: the `chmod` is made, and it is on
`/tmp/t.sock` with mode 01777. -/
theorem main_chmod_mode_witness :
    Event.chmod "/tmp/t.sock" 0o1777 ∈ (main unixOptions (rootWorld [])).trace ∧
    (getSocketAddressType unixOptions.logging_agent_address = ServerAddressType.SAT_UNIX ∧
      "/tmp/t.sock" = parseUnixSocketAddress unixOptions.logging_agent_address ∧
      0o1777 = S_ISVTX ||| 0o777 ∧ 0o1777 = 0o1777) :=
  ⟨(main_chmod_mode unixOptions (rootWorld [])).2 (by decide) (by decide),
   (main_chmod_mode unixOptions (rootWorld [])).1 "/tmp/t.sock" 0o1777 (by decide)⟩

/-- C5 as stated fails: for the address `unix:/tmp/t.sock` the setup completes
and the one `chmod` made has mode 01777, which has the group and others write
bits that 01755 lacks; no `chmod` with mode 01755 is made. -/
theorem main_chmod_mode_not_1755 :
    getSocketAddressType unixOptions.logging_agent_address = ServerAddressType.SAT_UNIX ∧
    Event.ev_loop ∈ (main unixOptions (rootWorld [])).trace ∧
    atPhase 3 (main unixOptions (rootWorld [])).trace = [Event.chmod "/tmp/t.sock" 0o1777] ∧
    Event.chmod "/tmp/t.sock" 0o1755 ∉ (main unixOptions (rootWorld [])).trace ∧
    (0o1777 : Nat) ≠ 0o1755 ∧
    socketMode ≠ 0o1755 ∧ socketMode &&& (S_IWGRP ||| S_IWOTH) = S_IWGRP ||| S_IWOTH := by
  decide

theorem isPrivilegeCall_phase (e : Event) (h : e.isPrivilegeCall = true) : e.phase = 7 := by
  cases e <;> simp_all [Event.isPrivilegeCall, Event.phase]

theorem isPrivilegedCreation_phase (e : Event) (h : e.isPrivilegedCreation = true) :
    e.phase = 2 ∨ e.phase = 3 ∨ e.phase = 6 := by
  cases e <;> simp_all [Event.isPrivilegedCreation, Event.phase]

theorem privilegeCalls_eq_nil (l : List Event) (h : ∀ e ∈ l, e.phase ≠ 7) :
    privilegeCalls l = [] := by
  simp only [privilegeCalls, List.filter_eq_nil_iff]
  intro e he hp
  exact h e he (isPrivilegeCall_phase e hp)

theorem mem_caught (w : World) (l : List Event) (what : String) (e : Event) :
    e ∈ (caught w l what).trace ↔
      e ∈ l ∨ e = Event.P_ERROR ("*** ERROR: " ++ what ++ "\n" ++ w.backtrace) := by
  simp [caught]

/-- A run in which the lookup of the configured user is made and fails ends in
the handler right after that lookup. -/
theorem main_of_getpwnam_none (o : Options) (w : World) (me : String)
    (h0 : myself w = Except.ok me)
    (hcall : Event.getpwnam (usernameOf o me) ∈ (main o w).trace)
    (hnull : w.getpwnam (usernameOf o me) = none) :
    (∃ fd, w.createServer o.logging_agent_address = Except.ok fd) ∧
    (chmodStep w o.logging_agent_address).2 = true ∧
    main o w = caught w (logAtUser o w me) (nonExistentUserMessage (usernameOf o me)) := by
  cases h1 : (createEventLoop w).2 with
  | false =>
    simp only [main, h0, h1, mem_caught] at hcall
    rcases hcall with h | h
    · exact absurd h ((staged_logAtEventLoop w).not_mem (by simp [Event.phase]))
    · cases h
  | true =>
  cases h2 : w.createServer o.logging_agent_address with
  | error what =>
    simp only [main, h0, h1, h2, mem_caught] at hcall
    rcases hcall with h | h
    · exact absurd h ((staged_logAtSocket o w).not_mem (by simp [Event.phase]))
    · cases h
  | ok fd =>
  cases h3 : (chmodStep w o.logging_agent_address).2 with
  | false =>
    simp only [main, h0, h1, h2, h3] at hcall
    exact absurd hcall ((staged_logAtChmod o w).not_mem (by simp [Event.phase]))
  | true =>
    refine ⟨⟨fd, rfl⟩, rfl, ?_⟩
    simp only [main, h0, h1, h2, h3, hnull]

/-- C7: in a run where `getpwnam` is called on the configured user name and
returns NULL, `main` returns 1; the last two calls are that lookup and the
error print, whose message contains the user name; the socket has been created
(and, for a filesystem address, `chmod` has been called on it) before the
lookup, and nothing but the error print follows it; `ev_loop` is never called,
and there is no privilege-changing call, no `makeDirTree` and no credential
registration. -/
theorem main_nonexistent_user (o : Options) (w : World) (name : String)
    (hcall : Event.getpwnam name ∈ (main o w).trace)
    (hnull : w.getpwnam name = none) :
    (∃ me, myself w = Except.ok me ∧ name = o.analytics_log_user.getD me) ∧
    (main o w).outcome = Outcome.exit 1 ∧
    (∃ before, (main o w).trace = before ++ [Event.getpwnam name,
        Event.P_ERROR ("*** ERROR: " ++ nonExistentUserMessage name ++ "\n" ++ w.backtrace)] ∧
      Event.createServer o.logging_agent_address ∈ before ∧
      (getSocketAddressType o.logging_agent_address = ServerAddressType.SAT_UNIX →
        Event.chmod (parseUnixSocketAddress o.logging_agent_address) socketMode ∈ before)) ∧
    (∃ a b, "*** ERROR: " ++ nonExistentUserMessage name ++ "\n" ++ w.backtrace
      = a ++ name ++ b) ∧
    Event.ev_loop ∉ (main o w).trace ∧
    privilegeCalls (main o w).trace = [] ∧
    (∀ path mode owner, Event.makeDirTree path mode owner ∉ (main o w).trace) ∧
    (∀ user password writable, Event.accountsAdd user password writable ∉ (main o w).trace) := by
  have h4 := mem_atPhase hcall
  have hphase : (Event.getpwnam name).phase = 4 := rfl
  rw [hphase] at h4
  rcases main_atPhase_getpwnam o w with h | ⟨me, h0, h⟩
  · rw [h] at h4
    cases h4
  rw [h] at h4
  simp only [List.mem_singleton, Event.getpwnam.injEq] at h4
  subst h4
  obtain ⟨⟨fd, hfd⟩, hchmod, hmain⟩ := main_of_getpwnam_none o w me h0 hcall hnull
  have hst := staged_logAtUser o w me
  refine ⟨⟨me, h0, rfl⟩, by rw [hmain]; rfl, ?_, ?_, ?_, ?_, ?_, ?_⟩
  · refine ⟨logAtChmod o w, ?_, ?_, ?_⟩
    · rw [hmain]
      simp [caught, logAtUser]
    · simp [logAtChmod, logAtSocket]
    · intro hu
      have := chmodStep_done_mem w _ hu hchmod
      simp [logAtChmod, this]
  · refine ⟨"*** ERROR: " ++ ("The configuration option " ++
        "'PassengerAnalyticsLogUser' (Apache) or " ++
        "'passenger_analytics_log_user' (Nginx) was set to '"),
      "', but this user doesn't exist. Please fix " ++
        "the configuration option." ++ "\n" ++ w.backtrace, ?_⟩
    simp only [nonExistentUserMessage, String.append_assoc]
  · rw [hmain, mem_caught]
    rintro (h | h)
    · exact hst.not_mem (by simp [Event.phase]) h
    · cases h
  · rw [hmain]
    apply privilegeCalls_eq_nil
    intro e he
    have := (staged_caught w (nonExistentUserMessage (usernameOf o me)) hst (by decide)).2
    rw [mem_caught] at he
    rcases he with he | he
    · have := hst.1 e he
      omega
    · subst he
      simp [Event.phase]
  · intro path mode owner
    rw [hmain, mem_caught]
    rintro (h | h)
    · exact hst.not_mem (by simp [Event.phase]) h
    · cases h
  · intro user password writable
    rw [hmain, mem_caught]
    rintro (h | h)
    · exact hst.not_mem (by simp [Event.phase]) h
    · cases h

/-- C7 at a concrete run: started as root, the user `nobody` is not in the
user database. -/
theorem main_nonexistent_user_witness :
    (main unixOptions noUserWorld).outcome = Outcome.exit 1 ∧
    Event.ev_loop ∉ (main unixOptions noUserWorld).trace ∧
    privilegeCalls (main unixOptions noUserWorld).trace = [] :=
  ⟨(main_nonexistent_user unixOptions noUserWorld "nobody" (by decide) rfl).2.1,
   (main_nonexistent_user unixOptions noUserWorld "nobody" (by decide) rfl).2.2.2.2.1,
   (main_nonexistent_user unixOptions noUserWorld "nobody" (by decide) rfl).2.2.2.2.2.1⟩

/-! #### The privilege drop -/

theorem privilegeCalls_lowerPrivilege (w : World) (username : String) (user : Passwd)
    (group : Group) :
    privilegeCalls (lowerPrivilege w username user group)
      = [Event.initgroups username group.gr_gid, Event.setgid group.gr_gid,
         Event.setuid user.pw_uid] := by
  simp only [lowerPrivilege]
  split_ifs <;> simp [privilegeCalls, Event.isPrivilegeCall]

theorem privilegeCalls_logAtServer (o : Options) (w : World) (me : String) (user : Passwd)
    (group : Group) (fd : Nat) :
    privilegeCalls (logAtServer o w me user group fd)
      = if w.geteuid = 0 then
          [Event.initgroups (usernameOf o me) group.gr_gid, Event.setgid group.gr_gid,
           Event.setuid user.pw_uid]
        else [] := by
  have h1 : privilegeCalls (logAtLogDir o w me user group) = [] :=
    privilegeCalls_eq_nil _ (fun e he => by
      have := (staged_logAtLogDir o w me user group).1 e he
      omega)
  simp only [logAtServer, privilegeCalls_append, h1, lowerPrivilegeEvents, List.nil_append]
  split_ifs
  · rw [privilegeCalls_lowerPrivilege]
    simp [privilegeCalls, Event.isPrivilegeCall]
  · simp [privilegeCalls, Event.isPrivilegeCall]

theorem phase_caught_suffix (w : World) (what : String) (l : List Event)
    (h : ∀ e ∈ l, 9 ≤ e.phase) :
    ∀ e ∈ l ++ [Event.P_ERROR ("*** ERROR: " ++ what ++ "\n" ++ w.backtrace)],
      9 ≤ e.phase := by
  intro e he
  rcases List.mem_append.1 he with he | he
  · exact h e he
  · simp at he
    subst he
    simp [Event.phase]

/-- Every run either stops before the privilege-drop step, with no
privilege-changing call and no credential registered, or goes through it. -/
theorem main_shape (o : Options) (w : World) :
    (Event.accountsAdd "logging" o.logging_agent_password false ∉ (main o w).trace ∧
      (∀ e ∈ (main o w).trace, e.phase ≠ 7) ∧
      (Event.getFileType o.analytics_log_dir ∈ (main o w).trace →
        w.loggingDirNonexistent = true ∧ ∃ what, w.makeDirTree = Except.error what)) ∨
    (∃ me user group fd rest,
      myself w = Except.ok me ∧
      w.getpwnam (usernameOf o me) = some user ∧
      (resolveGroup w (usernameOf o me) (groupnameOf o) user).2 = Except.ok group ∧
      (chmodStep w o.logging_agent_address).2 = true ∧
      (main o w).trace = logAtServer o w me user group fd ++ rest ∧
      ∀ e ∈ rest, 9 ≤ e.phase) := by
  have early : ∀ (k : Nat) (l : List Event) (what : String), Staged k l → k ≤ 5 →
      Event.accountsAdd "logging" o.logging_agent_password false ∉ (caught w l what).trace ∧
      (∀ e ∈ (caught w l what).trace, e.phase ≠ 7) ∧
      (Event.getFileType o.analytics_log_dir ∈ (caught w l what).trace →
        w.loggingDirNonexistent = true ∧ ∃ what, w.makeDirTree = Except.error what) := by
    intro k l what hl hk
    refine ⟨?_, ?_, ?_⟩
    · rw [mem_caught]
      rintro (h | h)
      · exact hl.not_mem (by simp [Event.phase]; omega) h
      · cases h
    · intro e he
      rw [mem_caught] at he
      rcases he with he | he
      · have := hl.1 e he
        omega
      · subst he
        simp [Event.phase]
    · rw [mem_caught]
      rintro (h | h)
      · exact absurd h (hl.not_mem (by simp [Event.phase]; omega))
      · cases h
  cases h0 : myself w with
  | error what =>
    left
    simp [main, h0, Event.phase]
  | ok me =>
  cases h1 : (createEventLoop w).2 with
  | false =>
    left
    simp only [main, h0, h1]
    exact early 1 _ _ (staged_logAtEventLoop w) (by decide)
  | true =>
  cases h2 : w.createServer o.logging_agent_address with
  | error what =>
    left
    simp only [main, h0, h1, h2]
    exact early 2 _ _ (staged_logAtSocket o w) (by decide)
  | ok fd =>
  cases h3 : (chmodStep w o.logging_agent_address).2 with
  | false =>
    left
    simp only [main, h0, h1, h2, h3]
    have hl := staged_logAtChmod o w
    refine ⟨hl.not_mem (by simp [Event.phase]), ?_, ?_⟩
    · intro e he
      have := hl.1 e he
      omega
    · intro h
      exact absurd h (hl.not_mem (by simp [Event.phase]))
  | true =>
  cases h4 : w.getpwnam (usernameOf o me) with
  | none =>
    left
    simp only [main, h0, h1, h2, h3, h4]
    exact early 4 _ _ (staged_logAtUser o w me) (by decide)
  | some user =>
  cases h5 : (resolveGroup w (usernameOf o me) (groupnameOf o) user).2 with
  | error what =>
    left
    simp only [main, h0, h1, h2, h3, h4, h5]
    exact early 5 _ _ (staged_logAtGroup o w me user) (by decide)
  | ok group =>
  cases h6 : (if w.loggingDirNonexistent = true then w.makeDirTree else Except.ok ()) with
  | error what =>
    left
    simp only [main, h0, h1, h2, h3, h4, h5, h6]
    have hl := staged_logAtLogDir o w me user group
    refine ⟨?_, ?_, ?_⟩
    · rw [mem_caught]
      rintro (h | h)
      · exact hl.not_mem (by simp [Event.phase]) h
      · cases h
    · intro e he
      rw [mem_caught] at he
      rcases he with he | he
      · have := hl.1 e he
        omega
      · subst he
        simp [Event.phase]
    · intro _
      by_cases hd : w.loggingDirNonexistent = true
      · rw [if_pos hd] at h6
        exact ⟨hd, what, h6⟩
      · rw [if_neg hd] at h6
        cases h6
  | ok u6 =>
  right
  refine ⟨me, user, group, fd, ?_⟩
  cases h7 : w.newLoggingServer with
  | error what =>
    refine ⟨_, rfl, h4, h5, rfl, ?_, phase_caught_suffix w what [] (by simp)⟩
    simp only [main, h0, h1, h2, h3, h4, h5, h6, h7, caught, List.nil_append]
  | ok u7 =>
  cases h8 : (if w.feedbackFdAvailable = true then w.feedbackWrite else Except.ok ()) with
  | error what =>
    refine ⟨_, rfl, h4, h5, rfl, ?_,
      phase_caught_suffix w what (feedbackEvents w) (fun e he => by
        rw [feedbackEvents_phase w e he])⟩
    simp only [main, h0, h1, h2, h3, h4, h5, h6, h7, h8, caught, logAtFeedback,
      List.append_assoc]
  | ok u8 =>
    obtain ⟨suffix, hs, hsuf⟩ := afterLoop_trace_cases w (logAfterLoop o w me user group fd)
      (ev_loop w (startedWatchers w) w.incoming).2
    have hm : (main o w).trace = logAfterLoop o w me user group fd ++ suffix := by
      simp only [main, h0, h1, h2, h3, h4, h5, h6, h7, h8]
      exact hs
    refine ⟨feedbackEvents w ++ (signalWatcherEvents ++ ([Event.ev_loop] ++
        ((ev_loop w (startedWatchers w) w.incoming).1 ++ suffix))), rfl, h4, h5, rfl, ?_, ?_⟩
    · rw [hm]
      simp only [logAfterLoop, logAtLoop, logAtFeedback, List.append_assoc]
    · intro e he
      simp only [List.mem_append] at he
      rcases he with he | he | he | he | he
      · rw [feedbackEvents_phase w e he]
      · simp [signalWatcherEvents] at he
        rcases he with rfl | rfl | rfl <;> simp [Event.phase]
      · simp at he
        subst he
        simp [Event.phase]
      · rw [ev_loop_phase w _ _ e he]
        decide
      · rcases hsuf with h | ⟨m, h⟩
        · rw [h] at he
          cases he
        · rw [h] at he
          simp at he
          subst he
          simp [Event.phase]

theorem makeDirEvents_mem (o : Options) (w : World) (user : Passwd) (group : Group)
    (h : w.loggingDirNonexistent = true) :
    ∃ owner, Event.makeDirTree o.analytics_log_dir (permissionsOf o w) owner
      ∈ makeDirEvents o w user group := by
  simp only [makeDirEvents, h, if_true]
  split_ifs
  · exact ⟨_, List.mem_singleton.2 rfl⟩
  · exact ⟨_, List.mem_singleton.2 rfl⟩

/-- In a log that follows the order of the steps, an event of the log that
belongs to an earlier step than `x` comes before `x`. -/
theorem Staged.mem_before {k : Nat} {before after : List Event} {x e : Event}
    (h : Staged k (before ++ x :: after)) (he : e ∈ before ++ x :: after)
    (hlt : e.phase < x.phase) : e ∈ before := by
  rcases List.mem_append.1 he with he | he
  · exact he
  · exfalso
    rcases List.mem_cons.1 he with he | he
    · subst he
      omega
    · have := h.split.2 e he
      omega

/-- C3: the privilege-changing calls of a run are exactly `initgroups`,
`setgid`, `setuid`, once each and in this order, whatever they return, when
the effective UID is 0 and the run gets to the privilege-drop step (which it
does exactly when it goes on to register the credential, the statement that
follows, since `lowerPrivilege` throws nothing), and there are none otherwise;
and each of them comes after the creation of the socket, the `chmod` of the
socket and the creation of the logging directory, none of which is called
again afterwards. -/
theorem main_privilege_drop (o : Options) (w : World) :
    (w.geteuid = 0 →
      Event.accountsAdd "logging" o.logging_agent_password false ∈ (main o w).trace →
      ∃ me user group, myself w = Except.ok me ∧
        w.getpwnam (usernameOf o me) = some user ∧
        (resolveGroup w (usernameOf o me) (groupnameOf o) user).2 = Except.ok group ∧
        privilegeCalls (main o w).trace
          = [Event.initgroups (usernameOf o me) group.gr_gid, Event.setgid group.gr_gid,
             Event.setuid user.pw_uid]) ∧
    (¬ (w.geteuid = 0 ∧
        Event.accountsAdd "logging" o.logging_agent_password false ∈ (main o w).trace) →
      privilegeCalls (main o w).trace = []) ∧
    (Event.getFileType o.analytics_log_dir ∈ (main o w).trace →
      (w.loggingDirNonexistent = true → w.makeDirTree = Except.ok ()) →
      Event.accountsAdd "logging" o.logging_agent_password false ∈ (main o w).trace) ∧
    (∀ before after e, (main o w).trace = before ++ e :: after →
      e.isPrivilegeCall = true →
      Event.createServer o.logging_agent_address ∈ before ∧
      (getSocketAddressType o.logging_agent_address = ServerAddressType.SAT_UNIX →
        Event.chmod (parseUnixSocketAddress o.logging_agent_address) socketMode ∈ before) ∧
      (w.loggingDirNonexistent = true →
        ∃ owner, Event.makeDirTree o.analytics_log_dir (permissionsOf o w) owner ∈ before) ∧
      (∀ x ∈ after, x.isPrivilegedCreation = false)) := by
  rcases main_shape o w with ⟨hno, hphase, hdir⟩ | ⟨me, user, group, fd, rest, h0, h4, h5, h3,
    htrace, hrest⟩
  · have hnil : privilegeCalls (main o w).trace = [] := privilegeCalls_eq_nil _ hphase
    refine ⟨fun _ h => absurd h hno, fun _ => hnil, ?_, ?_⟩
    · intro hft hok
      obtain ⟨hd, what, herr⟩ := hdir hft
      rw [hok hd] at herr
      cases herr
    · intro before after e htr he
      have hmem : e ∈ (main o w).trace := by
        rw [htr]
        simp
      exact absurd (isPrivilegeCall_phase e he) (hphase e hmem)
  · have hrestnil : privilegeCalls rest = [] :=
      privilegeCalls_eq_nil _ (fun e he => by
        have := hrest e he
        omega)
    have hcalls : privilegeCalls (main o w).trace
        = if w.geteuid = 0 then
            [Event.initgroups (usernameOf o me) group.gr_gid, Event.setgid group.gr_gid,
             Event.setuid user.pw_uid]
          else [] := by
      rw [htrace, privilegeCalls_append, hrestnil, privilegeCalls_logAtServer]
      simp
    have hadd : Event.accountsAdd "logging" o.logging_agent_password false
        ∈ (main o w).trace := by
      rw [htrace]
      simp [logAtServer]
    refine ⟨?_, ?_, fun _ _ => hadd, ?_⟩
    · intro he _
      refine ⟨me, user, group, h0, h4, h5, ?_⟩
      rw [hcalls, if_pos he]
    · intro hnot
      have hne : ¬ w.geteuid = 0 := fun h => hnot ⟨h, hadd⟩
      rw [hcalls, if_neg hne]
    · intro before after e htr he
      have hst := main_trace_staged o w
      rw [htr] at hst
      have hp := isPrivilegeCall_phase e he
      have hin : ∀ x, x ∈ logAtServer o w me user group fd → x ∈ before ++ e :: after := by
        intro x hx
        rw [← htr, htrace]
        exact List.mem_append_left _ hx
      refine ⟨?_, ?_, ?_, ?_⟩
      · refine hst.mem_before (hin _ ?_) (by rw [hp]; simp [Event.phase])
        simp [logAtServer, logAtLogDir, logAtGroup, logAtUser, logAtChmod, logAtSocket]
      · intro hu
        have hc := chmodStep_done_mem w _ hu h3
        refine hst.mem_before (hin _ ?_) (by rw [hp]; simp [Event.phase])
        simp [logAtServer, logAtLogDir, logAtGroup, logAtUser, logAtChmod, hc]
      · intro hd
        obtain ⟨owner, hm⟩ := makeDirEvents_mem o w user group hd
        refine ⟨owner, hst.mem_before (hin _ ?_) (by rw [hp]; simp [Event.phase])⟩
        simp [logAtServer, logAtLogDir, hm]
      · intro x hx
        have h7 := hst.split.2 x hx
        rw [hp] at h7
        cases hc : x.isPrivilegedCreation with
        | false => rfl
        | true =>
          rcases isPrivilegedCreation_phase x hc with h | h | h <;> omega

/-- C3 at concrete runs: started as root with all three calls failing, the
three calls are still made, and the socket has been created before the first
of them; started as `nobody`, none is made. -/
theorem main_privilege_drop_witness :
    privilegeCalls (main unixOptions dropFailsWorld).trace
      = [Event.initgroups "nobody" 65533, Event.setgid 65533, Event.setuid 65534] ∧
    Event.createServer "unix:/tmp/t.sock" ∈ (main unixOptions dropFailsWorld).trace.take 10 ∧
    Event.accountsAdd "logging" "secret" false ∈ (main unixOptions dropFailsWorld).trace ∧
    privilegeCalls (main unixOptions plainWorld).trace = [] := by
  obtain ⟨me, user, group, hme, huser, hgroup, hcalls⟩ :=
    (main_privilege_drop unixOptions dropFailsWorld).1 rfl (by decide)
  refine ⟨?_,
    ((main_privilege_drop unixOptions dropFailsWorld).2.2.2
      ((main unixOptions dropFailsWorld).trace.take 10)
      ((main unixOptions dropFailsWorld).trace.drop 11)
      (Event.initgroups "nobody" 65533) (by decide) rfl).1,
    (main_privilege_drop unixOptions dropFailsWorld).2.2.1 (by decide) (fun _ => rfl),
    (main_privilege_drop unixOptions plainWorld).2.1 (by decide)⟩
  rw [hcalls]
  have hme2 : me = "root" := by
    have : myself dropFailsWorld = Except.ok "root" := rfl
    rw [this] at hme
    cases hme
    rfl
  subst hme2
  have hu : user = ⟨"nobody", 65534, 65533⟩ := by
    have : dropFailsWorld.getpwnam (usernameOf unixOptions "root")
        = some ⟨"nobody", 65534, 65533⟩ := by decide
    rw [this] at huser
    cases huser
    rfl
  subst hu
  have hg : group = ⟨"nogroup", 65533⟩ := by
    have : (resolveGroup dropFailsWorld (usernameOf unixOptions "root")
        (groupnameOf unixOptions) ⟨"nobody", 65534, 65533⟩).2
        = Except.ok ⟨"nogroup", 65533⟩ := rfl
    rw [this] at hgroup
    cases hgroup
    rfl
  subst hg
  decide

/-! #### The handshake and the complete setup -/

theorem isHandlerCall_phase (e : Event) (h : e.isHandlerCall = true) : e.phase = 12 := by
  cases e <;> simp_all [Event.isHandlerCall, Event.phase]

theorem isAccountsAdd_phase (e : Event) (h : e.isAccountsAdd = true) : e.phase = 8 := by
  cases e <;> simp_all [Event.isAccountsAdd, Event.phase]

/-- C6: in a run that completes the setup with the feedback descriptor
available, `"initialized"` is written to it exactly once; the write comes
after the creation of the socket and its `chmod`, the look at the logging
directory and its creation by `makeDirTree` when it did not exist, every
privilege-changing call and the registration of the credential, none of which
is called again after the write; and it comes before `ev_loop` is called, no
callback of the reactor having run by then. In a run without the feedback
descriptor nothing is written to it. -/
theorem handshake_written_once (o : Options) (w : World) :
    (w.feedbackFdAvailable = true → Event.ev_loop ∈ (main o w).trace →
      ∃ before between after,
        (main o w).trace
          = before ++ Event.feedbackWrite "initialized" :: (between ++ Event.ev_loop :: after) ∧
        (∀ message, Event.feedbackWrite message ∉ before ++ between ++ after) ∧
        Event.createServer o.logging_agent_address ∈ before ∧
        (getSocketAddressType o.logging_agent_address = ServerAddressType.SAT_UNIX →
          Event.chmod (parseUnixSocketAddress o.logging_agent_address) socketMode ∈ before) ∧
        Event.getFileType o.analytics_log_dir ∈ before ∧
        (w.loggingDirNonexistent = true →
          ∃ owner, Event.makeDirTree o.analytics_log_dir (permissionsOf o w) owner ∈ before) ∧
        privilegeCalls before = privilegeCalls (main o w).trace ∧
        (w.geteuid = 0 → ∃ user gid uid, privilegeCalls before
          = [Event.initgroups user gid, Event.setgid gid, Event.setuid uid]) ∧
        Event.accountsAdd "logging" o.logging_agent_password false ∈ before ∧
        (∀ e ∈ between ++ Event.ev_loop :: after,
          e.isPrivilegedCreation = false ∧ e.isPrivilegeCall = false ∧
          e.isAccountsAdd = false ∧ (∀ path, e ≠ Event.getFileType path)) ∧
        Event.ev_loop ∉ before ++ between ∧
        (∀ e ∈ before ++ between, e.isHandlerCall = false)) ∧
    (w.feedbackFdAvailable = false →
      ∀ message, Event.feedbackWrite message ∉ (main o w).trace) := by
  refine ⟨?_, ?_⟩
  · intro hfd hloop
    obtain ⟨me, user, group, fd, -, -, -, h3, -, -, -, -, -, hmain⟩ :=
      main_of_ev_loop o w hloop
    obtain ⟨suffix, hs, hsuf⟩ := afterLoop_trace_cases w (logAfterLoop o w me user group fd)
      (ev_loop w (startedWatchers w) w.incoming).2
    have hst := staged_logAtServer o w me user group fd
    have hsufphase : ∀ e ∈ suffix, e.phase = 13 := by
      intro e he
      rcases hsuf with h | ⟨m, h⟩
      · rw [h] at he
        cases he
      · rw [h] at he
        simp at he
        subst he
        rfl
    have hbefore : ∀ e ∈ logAtServer o w me user group fd ++
        [Event.ioStart FEEDBACK_FD Callback.feedbackFdBecameReadable], e.phase ≤ 9 := by
      intro e he
      rcases List.mem_append.1 he with he | he
      · have := hst.1 e he
        omega
      · simp at he
        subst he
        simp [Event.phase]
    have hbetween : ∀ e ∈ signalWatcherEvents, e.phase = 10 := by
      intro e he
      simp [signalWatcherEvents] at he
      rcases he with rfl | rfl | rfl <;> rfl
    refine ⟨logAtServer o w me user group fd ++
        [Event.ioStart FEEDBACK_FD Callback.feedbackFdBecameReadable],
      signalWatcherEvents, (ev_loop w (startedWatchers w) w.incoming).1 ++ suffix,
      ?_, ?_, ?_, ?_, ?_, ?_, ?_, ?_, ?_, ?_, ?_, ?_⟩
    · rw [hmain, hs]
      simp [logAfterLoop, logAtLoop, logAtFeedback, feedbackEvents, hfd]
    · intro message hmem
      simp only [List.mem_append] at hmem
      rcases hmem with ((hmem | hmem) | hmem) | hmem | hmem
      · exact hst.not_mem (by simp [Event.phase]) hmem
      · simp at hmem
      · have := hbetween _ hmem
        simp [Event.phase] at this
      · have := ev_loop_phase w _ _ _ hmem
        simp [Event.phase] at this
      · have := hsufphase _ hmem
        simp [Event.phase] at this
    · simp [logAtServer, logAtLogDir, logAtGroup, logAtUser, logAtChmod, logAtSocket]
    · intro hu
      have hc := chmodStep_done_mem w _ hu h3
      simp [logAtServer, logAtLogDir, logAtGroup, logAtUser, logAtChmod, hc]
    · simp [logAtServer, logAtLogDir]
    · intro hd
      obtain ⟨owner, hm⟩ := makeDirEvents_mem o w user group hd
      exact ⟨owner, by simp [logAtServer, logAtLogDir, hm]⟩
    · rw [hmain, hs]
      simp only [logAfterLoop, logAtLoop, logAtFeedback, privilegeCalls_append]
      have h1 : privilegeCalls (feedbackEvents w) = [] :=
        privilegeCalls_eq_nil _ (fun e he => by rw [feedbackEvents_phase w e he]; decide)
      have h2 : privilegeCalls signalWatcherEvents = [] :=
        privilegeCalls_eq_nil _ (fun e he => by rw [hbetween e he]; decide)
      have h3 : privilegeCalls (ev_loop w (startedWatchers w) w.incoming).1 = [] :=
        privilegeCalls_eq_nil _ (fun e he => by rw [ev_loop_phase w _ _ e he]; decide)
      have h4 : privilegeCalls suffix = [] :=
        privilegeCalls_eq_nil _ (fun e he => by rw [hsufphase e he]; decide)
      rw [h1, h2, h3, h4]
      simp [privilegeCalls, Event.isPrivilegeCall]
    · intro he
      refine ⟨usernameOf o me, group.gr_gid, user.pw_uid, ?_⟩
      rw [privilegeCalls_append, privilegeCalls_logAtServer, if_pos he]
      simp [privilegeCalls, Event.isPrivilegeCall]
    · simp [logAtServer]
    · intro e he
      have hge : 10 ≤ e.phase := by
        rcases List.mem_append.1 he with he | he
        · rw [hbetween e he]
        · rcases List.mem_cons.1 he with he | he
          · subst he
            simp [Event.phase]
          · rcases List.mem_append.1 he with he | he
            · rw [ev_loop_phase w _ _ e he]
              decide
            · rw [hsufphase e he]
              decide
      refine ⟨?_, ?_, ?_, ?_⟩
      · cases hc : e.isPrivilegedCreation with
        | false => rfl
        | true => rcases isPrivilegedCreation_phase e hc with h | h | h <;> omega
      · cases hc : e.isPrivilegeCall with
        | false => rfl
        | true =>
          have := isPrivilegeCall_phase e hc
          omega
      · cases hc : e.isAccountsAdd with
        | false => rfl
        | true =>
          have := isAccountsAdd_phase e hc
          omega
      · intro path hp
        subst hp
        simp [Event.phase] at hge
    · intro hmem
      rcases List.mem_append.1 hmem with hmem | hmem
      · have := hbefore _ hmem
        simp [Event.phase] at this
      · have := hbetween _ hmem
        simp [Event.phase] at this
    · intro e he
      cases hc : e.isHandlerCall with
      | false => rfl
      | true =>
        have h12 := isHandlerCall_phase e hc
        rcases List.mem_append.1 he with he | he
        · have := hbefore _ he
          omega
        · have := hbetween _ he
          omega
  · intro hfd message hmem
    have h9 := mem_atPhase hmem
    have hphase : (Event.feedbackWrite message).phase = 9 := rfl
    rw [hphase] at h9
    rcases main_atPhase_feedback o w with h | h
    · rw [h] at h9
      cases h9
    · rw [h] at h9
      simp [feedbackEvents, hfd] at h9

/-- C6 at concrete runs: with the feedback descriptor the message is in the
log once, and the logging directory has been created before it; without the
descriptor the message is not in the log. -/
theorem handshake_written_once_witness :
    (main unixOptions (rootWorld [Incoming.serverSocketReadable none])).trace.count
        (Event.feedbackWrite "initialized") = 1 ∧
    (∃ before rest owner,
      (main unixOptions (rootWorld [Incoming.serverSocketReadable none])).trace
        = before ++ Event.feedbackWrite "initialized" :: rest ∧
      Event.makeDirTree "/var/log/analytics" "u=rwx,g=rx,o=rx" owner ∈ before) ∧
    Event.feedbackWrite "initialized" ∉ (main unixOptions plainWorld).trace := by
  obtain ⟨before, between, after, htrace, hnot, -, -, -, hdir, -⟩ :=
    (handshake_written_once unixOptions (rootWorld [Incoming.serverSocketReadable none])).1
      rfl (by decide)
  obtain ⟨owner, howner⟩ := hdir rfl
  refine ⟨?_, ⟨before, _, owner, htrace, howner⟩,
    (handshake_written_once unixOptions plainWorld).2 rfl "initialized"⟩
  have hb : Event.feedbackWrite "initialized" ∉ before := fun h =>
    hnot "initialized" (by simp [h])
  have hm : Event.feedbackWrite "initialized" ∉ between := fun h =>
    hnot "initialized" (by simp [h])
  have ha : Event.feedbackWrite "initialized" ∉ after := fun h =>
    hnot "initialized" (by simp [h])
  rw [htrace]
  simp [List.count_append, List.count_cons, List.count_eq_zero_of_not_mem hb,
    List.count_eq_zero_of_not_mem hm, List.count_eq_zero_of_not_mem ha]

end Passenger
